import Mathlib

/-!
Verification of the restore engine of the `ark` repository against its
natural-language specification.  The Go source is shallowly embedded:
untyped Kubernetes documents (`unstructured.Unstructured`, i.e. JSON
values / Go maps) become the `Json` type below, Go maps become
association lists considered up to key order, fallible Go functions
return `Except String`, and the stateful per-item restore loop of
`restoreResource` becomes an explicit state-passing function.
-/

/-- Model of an untyped resource document (Go `map[string]interface{}`
decoded from JSON).  Objects are association lists of fields; Go map
semantics (unique keys, unobservable order) are recovered by comparing
objects with `Json.deepEqual`, which canonicalises field order first. -/
inductive Json where
  | null
  | bool (b : Bool)
  | num (n : Int)
  | str (s : String)
  | arr (elems : List Json)
  | obj (fields : List (String × Json))
deriving Repr

mutual
/-- Decidable structural equality of documents (written by hand because
the derive handler does not support the nested recursion). -/
def Json.decEq : (a b : Json) → Decidable (a = b)
  | .null, .null => isTrue rfl
  | .null, .bool _ => isFalse (fun h => Json.noConfusion h)
  | .null, .num _ => isFalse (fun h => Json.noConfusion h)
  | .null, .str _ => isFalse (fun h => Json.noConfusion h)
  | .null, .arr _ => isFalse (fun h => Json.noConfusion h)
  | .null, .obj _ => isFalse (fun h => Json.noConfusion h)
  | .bool _, .null => isFalse (fun h => Json.noConfusion h)
  | .bool a, .bool b =>
    if h : a = b then isTrue (by rw [h])
    else isFalse (fun hh => h (by injection hh))
  | .bool _, .num _ => isFalse (fun h => Json.noConfusion h)
  | .bool _, .str _ => isFalse (fun h => Json.noConfusion h)
  | .bool _, .arr _ => isFalse (fun h => Json.noConfusion h)
  | .bool _, .obj _ => isFalse (fun h => Json.noConfusion h)
  | .num _, .null => isFalse (fun h => Json.noConfusion h)
  | .num _, .bool _ => isFalse (fun h => Json.noConfusion h)
  | .num a, .num b =>
    if h : a = b then isTrue (by rw [h])
    else isFalse (fun hh => h (by injection hh))
  | .num _, .str _ => isFalse (fun h => Json.noConfusion h)
  | .num _, .arr _ => isFalse (fun h => Json.noConfusion h)
  | .num _, .obj _ => isFalse (fun h => Json.noConfusion h)
  | .str _, .null => isFalse (fun h => Json.noConfusion h)
  | .str _, .bool _ => isFalse (fun h => Json.noConfusion h)
  | .str _, .num _ => isFalse (fun h => Json.noConfusion h)
  | .str a, .str b =>
    if h : a = b then isTrue (by rw [h])
    else isFalse (fun hh => h (by injection hh))
  | .str _, .arr _ => isFalse (fun h => Json.noConfusion h)
  | .str _, .obj _ => isFalse (fun h => Json.noConfusion h)
  | .arr _, .null => isFalse (fun h => Json.noConfusion h)
  | .arr _, .bool _ => isFalse (fun h => Json.noConfusion h)
  | .arr _, .num _ => isFalse (fun h => Json.noConfusion h)
  | .arr _, .str _ => isFalse (fun h => Json.noConfusion h)
  | .arr a, .arr b =>
    match Json.decEqList a b with
    | isTrue h => isTrue (by rw [h])
    | isFalse h => isFalse (fun hh => h (by injection hh))
  | .arr _, .obj _ => isFalse (fun h => Json.noConfusion h)
  | .obj _, .null => isFalse (fun h => Json.noConfusion h)
  | .obj _, .bool _ => isFalse (fun h => Json.noConfusion h)
  | .obj _, .num _ => isFalse (fun h => Json.noConfusion h)
  | .obj _, .str _ => isFalse (fun h => Json.noConfusion h)
  | .obj _, .arr _ => isFalse (fun h => Json.noConfusion h)
  | .obj a, .obj b =>
    match Json.decEqFields a b with
    | isTrue h => isTrue (by rw [h])
    | isFalse h => isFalse (fun hh => h (by injection hh))

/-- Decidable equality of document lists. -/
def Json.decEqList : (a b : List Json) → Decidable (a = b)
  | [], [] => isTrue rfl
  | [], _ :: _ => isFalse (fun h => List.noConfusion h)
  | _ :: _, [] => isFalse (fun h => List.noConfusion h)
  | a :: as, b :: bs =>
    match Json.decEq a b with
    | isFalse h => isFalse (fun hh => h (by injection hh))
    | isTrue h1 =>
      match Json.decEqList as bs with
      | isTrue h2 => isTrue (by rw [h1, h2])
      | isFalse h2 => isFalse (fun hh => h2 (by injection hh))

/-- Decidable equality of field lists. -/
def Json.decEqFields : (a b : List (String × Json)) → Decidable (a = b)
  | [], [] => isTrue rfl
  | [], _ :: _ => isFalse (fun h => List.noConfusion h)
  | _ :: _, [] => isFalse (fun h => List.noConfusion h)
  | (k1, v1) :: as, (k2, v2) :: bs =>
    if hk : k1 = k2 then
      match Json.decEq v1 v2 with
      | isFalse h => isFalse (fun hh => by
          injection hh with h1 _
          exact h (congrArg Prod.snd h1))
      | isTrue hv =>
        match Json.decEqFields as bs with
        | isTrue ht => isTrue (by rw [hk, hv, ht])
        | isFalse h => isFalse (fun hh => h (by injection hh))
    else isFalse (fun hh => by
      injection hh with h1 _
      exact hk (congrArg Prod.fst h1))
end

instance : DecidableEq Json := Json.decEq

/-- Insert a key-ordered field into a key-sorted field list (helper for
canonicalising the representation of a Go map). -/
def insertField (kv : String × Json) : List (String × Json) → List (String × Json)
  | [] => [kv]
  | x :: xs => if kv.1 ≤ x.1 then kv :: x :: xs else x :: insertField kv xs

/-- Sort an object field list by key (helper for `Json.canon`). -/
def sortFields : List (String × Json) → List (String × Json)
  | [] => []
  | x :: xs => insertField x (sortFields xs)

mutual
/-- Canonical form of a document: object fields recursively sorted by
key.  Two Go maps are equal iff their canonical forms are equal. -/
def Json.canon : Json → Json
  | .null => .null
  | .bool b => .bool b
  | .num n => .num n
  | .str s => .str s
  | .arr xs => .arr (canonList xs)
  | .obj fs => .obj (sortFields (canonFields fs))

def canonList : List Json → List Json
  | [] => []
  | x :: xs => x.canon :: canonList xs

def canonFields : List (String × Json) → List (String × Json)
  | [] => []
  | (k, v) :: fs => (k, v.canon) :: canonFields fs
end

/-- Model of `equality.Semantic.DeepEqual` on unstructured content:
structural equality of the underlying maps, insensitive to field order. -/
def Json.deepEqual (a b : Json) : Bool :=
  a.canon == b.canon

/-! ### Typed-path accessors over documents

These model the helpers the Go code uses on `unstructured` content:
`collections.GetString` / `collections.GetMap` (dotted-path accessors
with explicit errors) and `unstructured.NestedString` (found flag plus
error on a type mismatch). -/

/-- Key lookup in a Go map represented as an association list. -/
def lookupKey {b : Type} : List (String × b) → String → Option b
  | [], _ => none
  | (k', v) :: fs, k => if k' = k then some v else lookupKey fs k

/-- Walk a key path through nested objects; explicit error when a key is
absent or an intermediate value is not a map (model of the traversal in
`collections.GetValue`). -/
def getAtPath : Json → List String → Except String Json
  | j, [] => .ok j
  | .obj fs, k :: ks =>
    match lookupKey fs k with
    | some v => getAtPath v ks
    | none => .error ("key " ++ k ++ " not found")
  | _, _ :: _ => .error "value is not a map"

/-- Model of `collections.GetString(m, path)`: the value at the dotted
path, which must exist and be a string. -/
def getString (j : Json) (path : List String) : Except String String :=
  match getAtPath j path with
  | .ok (.str s) => .ok s
  | .ok _ => .error "value is not a string"
  | .error e => .error e

/-- Model of `collections.GetMap(m, path)`: the value at the dotted
path, which must exist and be a map. -/
def getMap (j : Json) (path : List String) : Except String (List (String × Json)) :=
  match getAtPath j path with
  | .ok (.obj fs) => .ok fs
  | .ok _ => .error "value is not a map"
  | .error e => .error e

/-- Model of `unstructured.NestedFieldNoCopy`: `.ok none` when a key on
the path is absent, an error when an intermediate value is not a map. -/
def nestedField : Json → List String → Except String (Option Json)
  | j, [] => .ok (some j)
  | .obj fs, k :: ks =>
    match lookupKey fs k with
    | some v => nestedField v ks
    | none => .ok none
  | _, _ :: _ => .error "value is not a map"

/-- Model of `unstructured.NestedString`: `.ok none` when not found, an
error when the value found is not a string. -/
def nestedString (j : Json) (path : List String) : Except String (Option String) :=
  match nestedField j path with
  | .error e => .error e
  | .ok none => .ok none
  | .ok (some (.str s)) => .ok (some s)
  | .ok (some _) => .error "value is not a string"

/-- Set a key in a Go map: replace in place if present, append if new. -/
def setKey : List (String × Json) → String → Json → List (String × Json)
  | [], k, v => [(k, v)]
  | (k', v') :: fs, k, v =>
    if k' = k then (k, v) :: fs else (k', v') :: setKey fs k v

/-- Delete a key from a Go map (`delete(m, k)`). -/
def deleteKey (fs : List (String × Json)) (k : String) : List (String × Json) :=
  fs.filter (fun kv => kv.1 ≠ k)

/-- Set a top-level field of a document (no-op shape change on
non-objects never occurs at call sites). -/
def Json.setTop (j : Json) (k : String) (v : Json) : Json :=
  match j with
  | .obj fs => .obj (setKey fs k v)
  | other => other

/-- Delete a top-level field of a document (`delete(obj.Object, k)`). -/
def Json.delTop (j : Json) (k : String) : Json :=
  match j with
  | .obj fs => .obj (deleteKey fs k)
  | other => other

/-- Set a value at a nested path, creating (or replacing non-map)
intermediates, as `SetNestedField` does for `SetLabels` and friends. -/
def setAtPath : Json → List String → Json → Json
  | _, [], v => v
  | .obj fs, k :: ks, v =>
    let sub := match lookupKey fs k with
      | some (.obj g) => Json.obj g
      | _ => Json.obj []
    .obj (setKey fs k (setAtPath sub ks v))
  | _, k :: ks, v => .obj [(k, setAtPath (.obj []) ks v)]

/-- Whether a document value is a string. -/
def Json.isStr : Json → Bool
  | .str _ => true
  | _ => false

/-- Model of `obj.GetName()`: `metadata.name` as a string, `""` when
absent or mistyped (the accessor swallows errors). -/
def getName (obj : Json) : String :=
  match getAtPath obj ["metadata", "name"] with
  | .ok (.str s) => s
  | _ => ""

/-- Extract a string-to-string map field the way
`unstructured.NestedStringMap` does: `[]` when absent, and also `[]`
when any value is not a string (the accessor returns nil on error). -/
def getStringMapAt (obj : Json) (path : List String) : List (String × String) :=
  match getAtPath obj path with
  | .ok (.obj fs) =>
    if fs.all (fun kv => kv.2.isStr) then
      fs.filterMap (fun kv =>
        match kv.2 with
        | .str s => some (kv.1, s)
        | _ => none)
    else []
  | _ => []

/-- Model of `obj.GetLabels()`. -/
def getLabels (obj : Json) : List (String × String) :=
  getStringMapAt obj ["metadata", "labels"]

/-- Model of `obj.GetAnnotations()`. -/
def getAnnotations (obj : Json) : List (String × String) :=
  getStringMapAt obj ["metadata", "annotations"]

/-- Turn a string map back into a document value. -/
def strMapToJson (m : List (String × String)) : Json :=
  .obj (m.map (fun kv => (kv.1, .str kv.2)))

/-- Model of `obj.SetLabels(m)`. -/
def setLabels (obj : Json) (m : List (String × String)) : Json :=
  setAtPath obj ["metadata", "labels"] (strMapToJson m)

/-- Model of `obj.SetAnnotations(m)`. -/
def setAnnotations (obj : Json) (m : List (String × String)) : Json :=
  setAtPath obj ["metadata", "annotations"] (strMapToJson m)

/-- Model of `obj.SetNamespace(ns)`. -/
def setNamespaceField (obj : Json) (ns : String) : Json :=
  setAtPath obj ["metadata", "namespace"] (.str ns)

/-- Set a key in a string-to-string map. -/
def setStrKey : List (String × String) → String → String → List (String × String)
  | [], k, v => [(k, v)]
  | (k', v') :: fs, k, v =>
    if k' = k then (k, v) :: fs else (k', v') :: setStrKey fs k v

/-! ### GroupResource, selectors, result aggregation -/

/-- Canonical identity of a resource type (`schema.GroupResource`). -/
structure GroupResource where
  group : String
  resource : String
deriving Repr, DecidableEq

/-- Model of `schema.GroupResource.String()`: `resource.group`, or just
`resource` when the group is empty. -/
def GroupResource.canonical (gr : GroupResource) : String :=
  if gr.group = "" then gr.resource else gr.resource ++ "." ++ gr.group

/-- The resource types the engine special-cases (`kuberesource`). -/
def grPods : GroupResource := ⟨"", "pods"⟩

def grJobs : GroupResource := ⟨"batch", "jobs"⟩

def grPersistentVolumes : GroupResource := ⟨"", "persistentvolumes"⟩

def grPersistentVolumeClaims : GroupResource := ⟨"", "persistentvolumeclaims"⟩

def grServiceAccounts : GroupResource := ⟨"", "serviceaccounts"⟩

def grNamespaces : GroupResource := ⟨"", "namespaces"⟩

/-- Model of `metav1.LabelSelector` restricted to `matchLabels` (the
restore engine never builds match expressions itself). -/
structure LabelSelectorSpec where
  matchLabels : List (String × String)
deriving Repr, DecidableEq

/-- Model of `labels.Selector`: either the Nothing selector (matches no
set) or a conjunction of equality requirements. -/
inductive Selector where
  | nothing
  | requirements (reqs : List (String × String))
deriving Repr, DecidableEq

/-- Model of `Selector.Matches` on a label set. -/
def Selector.matches : Selector → List (String × String) → Bool
  | .nothing, _ => false
  | .requirements rs, lbls => rs.all (fun kv => lookupKey lbls kv.1 == some kv.2)

/-- Model of `metav1.LabelSelectorAsSelector`: a nil selector becomes
the Nothing selector; a non-nil selector becomes its requirements (an
empty requirement list matches everything). -/
def labelSelectorAsSelector : Option LabelSelectorSpec → Selector
  | none => .nothing
  | some ls => .requirements ls.matchLabels

/-- The global selector construction at the top of `Restore`: a nil
`restore.Spec.LabelSelector` is replaced by a non-nil empty selector
before conversion, so that an absent selector matches everything. -/
def buildGlobalSelector (ls : Option LabelSelectorSpec) : Selector :=
  labelSelectorAsSelector (some (ls.getD ⟨[]⟩))

/-- Model of `api.RestoreResult`: messages segmented by system (Ark),
cluster, and per-namespace scope. -/
structure RestoreResult where
  ark : List String
  cluster : List String
  namespaces : List (String × List String)
deriving Repr, DecidableEq

/-- The zero `api.RestoreResult{}`. -/
def emptyResult : RestoreResult := ⟨[], [], []⟩

/-- Whether a result carries no message at all. -/
def RestoreResult.isEmpty (r : RestoreResult) : Bool :=
  r.ark.isEmpty && r.cluster.isEmpty && (r.namespaces.all (fun kv => kv.2.isEmpty))

/-- Append a message to a namespace entry of the per-namespace map. -/
def appendNsMsg : List (String × List String) → String → String → List (String × List String)
  | [], ns, e => [(ns, [e])]
  | (n, msgs) :: rest, ns, e =>
    if n = ns then (n, msgs ++ [e]) :: rest else (n, msgs) :: appendNsMsg rest ns e

/-- Model of `addArkError`: append to the system-scoped (Ark) list. -/
def addArkError (r : RestoreResult) (e : String) : RestoreResult :=
  { r with ark := r.ark ++ [e] }

/-- Model of `addToResult`: cluster scope when `ns` is empty, otherwise
the entry of namespace `ns`. -/
def addToResult (r : RestoreResult) (ns : String) (e : String) : RestoreResult :=
  if ns = "" then { r with cluster := r.cluster ++ [e] }
  else { r with namespaces := appendNsMsg r.namespaces ns e }

/-- Model of `errors.Wrapf(err, msg)`: nil stays nil, otherwise the
message is prefixed to the wrapped error text. -/
def wrapf (e : Option String) (msg : String) : Option String :=
  e.map (fun s => msg ++ ": " ++ s)

/-! ### Item predicates and metadata reset -/

/-- Model of `isCompleted`: a Pod with phase Failed or Succeeded, or a
Job with a non-empty `status.completionTime`, is complete; any other
resource kind is never complete.  The typed-path errors of
`unstructured.NestedString` propagate. -/
def isCompleted (obj : Json) (gr : GroupResource) : Except String Bool :=
  if gr = grPods then
    match nestedString obj ["status", "phase"] with
    | .error e => .error e
    | .ok p => .ok (p == some "Failed" || p == some "Succeeded")
  else if gr = grJobs then
    match nestedString obj ["status", "completionTime"] with
    | .error e => .error e
    | .ok (some ct) => .ok (ct != "")
    | .ok none => .ok false
  else
    .ok false

/-- Model of `resetMetadataAndStatus`: keep only
name/namespace/labels/annotations inside `metadata`, drop `status`
entirely; error when `metadata` is absent or not a map. -/
def resetMetadataAndStatus (obj : Json) : Except String Json :=
  match getMap obj ["metadata"] with
  | .error e => .error e
  | .ok md =>
    let md' := md.filter (fun kv =>
      kv.1 = "name" ∨ kv.1 = "namespace" ∨ kv.1 = "labels" ∨ kv.1 = "annotations")
    .ok ((obj.setTop "metadata" (.obj md')).delTop "status")

/-- Label keys stamped by the restore (`api` package constants). -/
def backupNameLabel : String := "ark.heptio.com/backup-name"

def restoreNameLabel : String := "ark.heptio.com/restore-name"

def restoreLabelKey : String := "ark-restore"

/-- Model of `addRestoreLabels`: stamp the backup-name, restore-name and
legacy restore labels onto the object. -/
def addRestoreLabels (obj : Json) (restoreName backupName : String) : Json :=
  let lbls := getLabels obj
  let lbls := setStrKey lbls backupNameLabel backupName
  let lbls := setStrKey lbls restoreNameLabel restoreName
  let lbls := setStrKey lbls restoreLabelKey restoreName
  setLabels obj lbls

/-! ### PV restorer -/

/-- Snapshot descriptor from the backup (`api.VolumeBackupInfo`). -/
structure VolumeBackupInfo where
  snapshotID : String
  volType : String
  availabilityZone : String
  iops : Option Int
deriving Repr, DecidableEq

/-- External block-store collaborator.  `setVolumeID` folds the
provider call and the `*unstructured.Unstructured` cast into one
fallible step. -/
structure BlockStore where
  createVolumeFromSnapshot : String → String → String → Option Int → Except String String
  setVolumeID : Json → String → Except String Json

/-- Model of `boolptr.IsSetToFalse`. -/
def isSetToFalse (b : Option Bool) : Bool := b == some false

/-- Configuration of the `pvRestorer` struct. -/
structure PVRestorer where
  snapshotVolumes : Option Bool
  restorePVs : Option Bool
  volumeBackups : List (String × VolumeBackupInfo)
  blockStore : Option BlockStore

/-- Model of `pvRestorer.executePVAction`: requires a name, strips
`spec.claimRef` and `spec.storageClassName`, returns early (item
otherwise untouched) when snapshotting was disabled, PV restore is
disabled, or no snapshot record exists; otherwise requires a block
store, creates a volume from the snapshot and rewrites the volume id. -/
def executePVAction (r : PVRestorer) (obj : Json) : Except String Json :=
  let pvName := getName obj
  if pvName = "" then .error "PersistentVolume is missing its name"
  else
    match getMap obj ["spec"] with
    | .error e => .error e
    | .ok spec =>
      let spec' := deleteKey (deleteKey spec "claimRef") "storageClassName"
      let obj := obj.setTop "spec" (.obj spec')
      if isSetToFalse r.snapshotVolumes then .ok obj
      else if isSetToFalse r.restorePVs then .ok obj
      else
        match lookupKey r.volumeBackups pvName with
        | none => .ok obj
        | some backupInfo =>
          match r.blockStore with
          | none => .error "you must configure a persistentVolumeProvider to restore PersistentVolumes from snapshots"
          | some bs =>
            match bs.createVolumeFromSnapshot backupInfo.snapshotID backupInfo.volType
                backupInfo.availabilityZone backupInfo.iops with
            | .error e => .error e
            | .ok volumeID => bs.setVolumeID obj volumeID

/-- Model of `isPVReady`: `status.phase` equals `v1.VolumeAvailable`
(the string constant `Available`); any accessor error means not ready. -/
def isPVReady (obj : Json) : Bool :=
  match getString obj ["status", "phase"] with
  | .ok phase => phase = "Available"
  | .error _ => false

/-! ### ServiceAccount conflict merge

`mergeServiceAccounts` and `generatePatch` are code of this repository
that is not under `src/` (only their caller in `restoreResource` is), so
they are modelled from the spec. -/

/-- Append an element to an accumulator unless already present. -/
def addUnique (acc : List Json) (x : Json) : List Json :=
  if acc.contains x then acc else acc ++ [x]

/-- De-duplicated union that preserves the live entries in place and
appends the backed-up entries not already present, in order. -/
def dedupUnion (live backed : List Json) : List Json :=
  backed.foldl addUnique live

/-- Top-level array field of a document, empty when absent/mistyped. -/
def getArrTop (j : Json) (k : String) : List Json :=
  match j with
  | .obj fs =>
    match lookupKey fs k with
    | some (.arr xs) => xs
    | _ => []
  | _ => []

/-- Modelled from the spec: `mergeServiceAccounts` (absent from `src/`)
computes the desired ServiceAccount as the live object with its
`secrets` and `imagePullSecrets` replaced by the de-duplicated union of
live and backed-up entries, preserving live entries. -/
def mergeServiceAccounts (fromCluster backup : Json) : Json :=
  let secrets := dedupUnion (getArrTop fromCluster "secrets") (getArrTop backup "secrets")
  let ips := dedupUnion (getArrTop fromCluster "imagePullSecrets") (getArrTop backup "imagePullSecrets")
  (fromCluster.setTop "secrets" (.arr secrets)).setTop "imagePullSecrets" (.arr ips)

/-- Modelled from the spec: `generatePatch` (absent from `src/`) returns
nil when in-cluster and desired state are the same, else a merge patch
holding the top-level fields in which the desired state differs. -/
def generatePatch (fromCluster desired : Json) : Option Json :=
  if fromCluster.deepEqual desired then none
  else
    match desired, fromCluster with
    | .obj ds, .obj fcs =>
      some (.obj (ds.filter (fun kv =>
        ¬ ((lookupKey fcs kv.1).any (fun v => v.deepEqual kv.2)))))
    | _, _ => some desired

/-- Application of a merge patch by the API server, restricted to the
top-level field sets the modelled `generatePatch` produces. -/
def applyMergePatch (live patch : Json) : Json :=
  match patch with
  | .obj ps => ps.foldl (fun acc kv => acc.setTop kv.1 kv.2) live
  | other => other

/-! ### Resolved actions and the action loop -/

/-- A resolved pluggable action after pre-filtering: its label selector
and its `Execute` hook.  `Execute` yields the updated item (`none`
models a value that is not `*unstructured.Unstructured`), an optional
warning and an optional hard error. -/
structure ResolvedActionM where
  selector : Selector
  execute : Json → (Option Json × Option String × Option String)

/-- Outcome of running the pre-filtered actions over one item. -/
structure ActionsOut where
  obj : Option Json
  warnings : RestoreResult
  errs : RestoreResult
  panicked : Bool

/-- Model of the action loop of `restoreResource` (lines 670-693): skip
actions whose selector does not match the current labels; on a warning
the code records `errors.Wrapf(err, ...)` — which is nil when the hard
error is nil, making `addToResult` call `Error()` on a nil error
(modelled as `panicked`); on a hard error the wrapped error is recorded
and the item is abandoned; otherwise the updated object (after the
unstructured cast) replaces the current one. -/
def runActions (ns file resource : String) (warnings errs : RestoreResult) (obj : Json) :
    List ResolvedActionM → ActionsOut
  | [] => ⟨some obj, warnings, errs, false⟩
  | a :: rest =>
    if ¬ a.selector.matches (getLabels obj) then
      runActions ns file resource warnings errs obj rest
    else
      let r := a.execute obj
      let upd := r.1
      let warn := r.2.1
      let err := r.2.2
      let wmsg := "warning preparing item " ++ file ++ " for resource " ++ resource ++ " in namespace " ++ ns
      let emsg := "error preparing item " ++ file ++ " for resource " ++ resource ++ " in namespace " ++ ns
      if warn.isSome then
        match wrapf err wmsg with
        | none => ⟨none, warnings, errs, true⟩
        | some w =>
          let warnings := addToResult warnings ns w
          match err with
          | some e => ⟨none, warnings, addToResult errs ns (emsg ++ ": " ++ e), false⟩
          | none =>
            match upd with
            | none => ⟨none, warnings, addToResult errs ns ("unexpected type for item " ++ file), false⟩
            | some u => runActions ns file resource warnings errs u rest
      else
        match err with
        | some e => ⟨none, warnings, addToResult errs ns (emsg ++ ": " ++ e), false⟩
        | none =>
          match upd with
          | none => ⟨none, warnings, addToResult errs ns ("unexpected type for item " ++ file), false⟩
          | some u => runActions ns file resource warnings errs u rest

/-! ### The per-item restore pipeline of `restoreResource` -/

/-- Model of `v1.MirrorPodAnnotationKey`. -/
def mirrorPodAnnotationKey : String := "kubernetes.io/config.mirror"

/-- Prefix of the pod-volume snapshot annotations consulted by
`restic.GetPodSnapshotAnnotations`. -/
def podSnapshotAnnotationPrefix : String := "snapshot.ark.heptio.com/"

/-- Context of one `restoreResource(archiveReader, resource, namespace)`
call: the global selector, the resource type, the (possibly remapped)
target namespace (`""` for cluster scope), the identification label
values, the snapshot records of the backup, the PV restorer, the
pre-filtered applicable actions, and whether a pod-volume (restic)
restorer is configured. -/
structure ItemCtx where
  selector : Selector
  groupResource : GroupResource
  ns : String
  restoreName : String
  backupName : String
  volumeBackups : List (String × VolumeBackupInfo)
  pvRestorer : PVRestorer
  actions : List ResolvedActionM
  resticConfigured : Bool

/-- Mutable state threaded through the item loop: the live cluster for
this resource type and namespace (keyed by object name, as seen by the
dynamic client), the provisioning set, the watch handle and the names
with a spawned readiness-wait task, the log of issued `Create` and
`Patch` calls, the spawned whole-restore (pod-volume) tasks, the two
result aggregates, and whether the Go code would have panicked. -/
structure RState where
  cluster : List (String × Json)
  pvsToProvision : List String
  watchOpened : Bool
  pvWaits : List String
  creates : List (String × Json)
  patches : List (String × Json)
  globalTasks : List String
  warnings : RestoreResult
  errs : RestoreResult
  panicked : Bool
deriving Repr, DecidableEq

/-- Model of `sets.String.Insert`. -/
def insertString (s : List String) (x : String) : List String :=
  if s.contains x then s else s ++ [x]

/-- Model of the `IsAlreadyExists` branch of `restoreResource` (lines
714-767): fetch the live object, strip it with
`resetMetadataAndStatus`, copy the identification labels from the
attempted object, deep-compare; when identical do nothing; when
different, merge-and-patch for ServiceAccounts and record a warning for
every other resource type.  The dynamic client is cooperative: `Get`
returns the stored document and `Patch` applies the merge patch. -/
def handleAlreadyExists (ctx : ItemCtx) (st : RState) (name : String) (obj : Json) : RState :=
  match lookupKey st.cluster name with
  | none => st
  | some stored =>
    match resetMetadataAndStatus stored with
    | .error e => { st with warnings := addToResult st.warnings ctx.ns e }
    | .ok fc0 =>
      let lbls := getLabels obj
      let fromCluster := addRestoreLabels fc0 ((lookupKey lbls restoreNameLabel).getD "")
        ((lookupKey lbls backupNameLabel).getD "")
      if fromCluster.deepEqual obj then st
      else if ctx.groupResource = grServiceAccounts then
        let desired := mergeServiceAccounts fromCluster obj
        match generatePatch fromCluster desired with
        | none => st
        | some patch =>
          { st with
            cluster := setKey st.cluster name (applyMergePatch stored patch)
            patches := st.patches ++ [(name, patch)] }
      else
        let msg := "not restored: already exists and is different from backed up version."
        { st with warnings := addToResult st.warnings ctx.ns msg }

/-- Model of the `Create` call and its aftermath (lines 713, 770-795):
an existing name yields the already-exists handling; otherwise the
object is stored and, for a created Pod carrying pod-volume snapshot
annotations with a restic restorer configured, a whole-restore-scoped
task is spawned. -/
def createPhase (ctx : ItemCtx) (st : RState) (name : String) (obj : Json) : RState :=
  if (lookupKey st.cluster name).isSome then handleAlreadyExists ctx st name obj
  else
    let st1 := { st with
      cluster := st.cluster ++ [(name, obj)]
      creates := st.creates ++ [(name, obj)] }
    if ctx.groupResource = grPods
        ∧ (getAnnotations obj).any (fun kv => kv.1.startsWith podSnapshotAnnotationPrefix)
        ∧ ctx.resticConfigured then
      { st1 with globalTasks := st1.globalTasks ++ [name] }
    else st1

/-- Model of the PersistentVolume branch (lines 613-649): a PV with no
snapshot record whose reclaim policy reads as `Delete` goes into the
provisioning set and is skipped; otherwise the PV restorer runs (its
error ends the item), and on the first such PV a watch is opened and a
single readiness-wait task is spawned for that PV name. -/
def pvBranch (ctx : ItemCtx) (st : RState) (file name : String) (obj : Json) :
    RState × Option Json :=
  if ctx.groupResource ≠ grPersistentVolumes then (st, some obj)
  else
    let found := (lookupKey ctx.volumeBackups name).isSome
    let provision :=
      match getString obj ["spec", "persistentVolumeReclaimPolicy"] with
      | .ok rp => !found && rp == "Delete"
      | .error _ => false
    if provision then
      ({ st with pvsToProvision := insertString st.pvsToProvision name }, none)
    else
      match executePVAction ctx.pvRestorer obj with
      | .error e =>
        let msg := "error executing PVAction for item " ++ file ++ ": " ++ e
        ({ st with errs := addToResult st.errs ctx.ns msg }, none)
      | .ok updated =>
        if ¬ st.watchOpened then
          ({ st with watchOpened := true, pvWaits := st.pvWaits ++ [name] }, some updated)
        else (st, some updated)

/-- Model of the PersistentVolumeClaim branch (lines 651-668): a claim
bound to a PV in the provisioning set loses its `spec.volumeName` and
its two binding-completed annotations; a missing `spec` map is an item
error; a non-string `spec.volumeName` makes the Go type assertion
panic. -/
def pvcBranch (ctx : ItemCtx) (st : RState) (obj : Json) : RState × Option Json :=
  if ctx.groupResource ≠ grPersistentVolumeClaims then (st, some obj)
  else
    match getMap obj ["spec"] with
    | .error e => ({ st with errs := addToResult st.errs ctx.ns e }, none)
    | .ok spec =>
      match lookupKey spec "volumeName" with
      | none => (st, some obj)
      | some (.str v) =>
        if st.pvsToProvision.contains v then
          let obj1 := obj.setTop "spec" (.obj (deleteKey spec "volumeName"))
          let annots := getAnnotations obj1
          let annots := annots.filter (fun kv =>
            kv.1 ≠ "pv.kubernetes.io/bind-completed" ∧ kv.1 ≠ "pv.kubernetes.io/bound-by-controller")
          (st, some (setAnnotations obj1 annots))
        else (st, some obj)
      | some _ => ({ st with panicked := true }, none)

/-- Tail of the per-item pipeline from the action loop onward: run the
pre-filtered actions, reset metadata and status, overwrite the
namespace, stamp the identification labels, and create (lines 670-795).
Factored out of `restoreItem` so that its behavior can be characterised
once for all paths that reach it. -/
def restoreItemTail (ctx : ItemCtx) (st2 : RState) (file name : String) (obj2 : Json) : RState :=
  match runActions ctx.ns file ctx.groupResource.canonical st2.warnings st2.errs obj2 ctx.actions with
  | ⟨none, w, e, p⟩ =>
    { st2 with warnings := w, errs := e, panicked := st2.panicked ∨ p }
  | ⟨some obj3, w, e, _⟩ =>
    let st3 := { st2 with warnings := w, errs := e }
    match resetMetadataAndStatus obj3 with
    | .error er => { st3 with errs := addToResult st3.errs ctx.ns er }
    | .ok obj4 =>
      let obj5 := if ctx.ns ≠ "" then setNamespaceField obj4 ctx.ns else obj4
      let obj6 := addRestoreLabels obj5 ctx.restoreName ctx.backupName
      createPhase ctx st3 name obj6

/-- Model of the body of the per-file loop of `restoreResource` (lines
559-796) for one decoded item: global selector check, completion check,
mirror-pod skip, the PV and PVC branches, the action loop, metadata
reset, namespace overwrite, identification labels, and the `Create`
call with conflict handling.  The dynamic-client construction (lines
587-603) is modelled as always succeeding. -/
def restoreItem (ctx : ItemCtx) (st : RState) (file : String) (obj : Json) : RState :=
  if ¬ ctx.selector.matches (getLabels obj) then st
  else
    match isCompleted obj ctx.groupResource with
    | .error e =>
      { st with errs := addToResult st.errs ctx.ns ("error checking completion for item " ++ file ++ ": " ++ e) }
    | .ok true => st
    | .ok false =>
      let name := getName obj
      if ctx.groupResource = grPods
          ∧ ((getAnnotations obj).lookup mirrorPodAnnotationKey).getD "" ≠ "" then st
      else
        match pvBranch ctx st file name obj with
        | (st1, none) => st1
        | (st1, some obj1) =>
          match pvcBranch ctx st1 obj1 with
          | (st2, none) => st2
          | (st2, some obj2) => restoreItemTail ctx st2 file name obj2

/-! ### Resource prioritizer (`prioritizeResources`) -/

/-- One entry of `helper.Resources()`: a group/version string (such as
`storage.k8s.io/v1`) and the resource names discovered under it. -/
structure APIResourceGroup where
  groupVersion : String
  apiResources : List String
deriving Repr, DecidableEq

/-- Parsed group/version pair. -/
structure GroupVersion where
  group : String
  version : String
deriving Repr, DecidableEq

/-- Split a character list at every occurrence of a separator. -/
def splitChar (c : Char) : List Char → List (List Char)
  | [] => [[]]
  | x :: xs =>
    let r := splitChar c xs
    if x = c then [] :: r
    else
      match r with
      | [] => [[x]]
      | y :: ys => (x :: y) :: ys

/-- Model of `schema.ParseGroupVersion`: empty and `/` parse to the
empty pair, no slash is a bare version, one slash separates group and
version, more slashes are an error. -/
def parseGroupVersion (s : String) : Option GroupVersion :=
  if s = "" ∨ s = "/" then some ⟨"", ""⟩
  else
    match splitChar '/' s.data with
    | [v] => some ⟨"", ⟨v⟩⟩
    | [g, v] => some ⟨⟨g⟩, ⟨v⟩⟩
    | _ => none

/-- First phase of `prioritizeResources`: resolve each configured
priority entry through discovery (failure fails the whole call), keep
only the entries the include/exclude filter admits, in configured
order. -/
def resolvePriorities (resourceFor : String → Option GroupResource)
    (shouldInclude : String → Bool) : List String → Option (List GroupResource)
  | [] => some []
  | r :: rs =>
    match resourceFor r with
    | none => none
    | some gr =>
      match resolvePriorities resourceFor shouldInclude rs with
      | none => none
      | some rest =>
        some (if shouldInclude gr.canonical then gr :: rest else rest)

/-- Second phase: scan every discovered resource of every group and
collect those the filter admits and that are not in the seen-set of
resolved priorities; an unparsable group/version fails the call. -/
def collectByName (shouldInclude : String → Bool) (seen : List String) :
    List APIResourceGroup → Option (List GroupResource)
  | [] => some []
  | g :: gs =>
    match parseGroupVersion g.groupVersion with
    | none => none
    | some gv =>
      let here := g.apiResources.filterMap (fun n =>
        let gr : GroupResource := ⟨gv.group, n⟩
        if shouldInclude gr.canonical && !seen.contains gr.canonical then some gr else none)
      match collectByName shouldInclude seen gs with
      | none => none
      | some rest => some (here ++ rest)

/-- Order on resource types by canonical name, as `sort.Slice` uses. -/
def grLE (a b : GroupResource) : Prop := a.canonical ≤ b.canonical

instance : DecidableRel grLE := fun a b =>
  inferInstanceAs (Decidable (a.canonical ≤ b.canonical))

instance : IsTotal GroupResource grLE := ⟨fun a b => le_total a.canonical b.canonical⟩

instance : IsTrans GroupResource grLE := ⟨fun _ _ _ h h' => le_trans h h'⟩

/-- Model of `prioritizeResources`: resolved-and-admitted priority
entries in configured order, followed by the remaining discovered
admitted resources sorted by canonical name. -/
def prioritizeResources (resourceFor : String → Option GroupResource)
    (resources : List APIResourceGroup) (priorities : List String)
    (shouldInclude : String → Bool) : Option (List GroupResource) :=
  match resolvePriorities resourceFor shouldInclude priorities with
  | none => none
  | some ret =>
    match collectByName shouldInclude (ret.map GroupResource.canonical) resources with
    | none => none
    | some byName => some (ret ++ byName.insertionSort grLE)

/-! ### Namespace creation and remapping (`restoreFromArchive`) -/

/-- The namespace API object `getNamespace` builds for get-or-create. -/
structure NamespaceObj where
  name : String
  labels : List (String × String)
  annotations : List (String × String)
  spec : Json
deriving Repr, DecidableEq

/-- A bare namespace object carrying only the target name. -/
def bareNamespace (remappedName : String) : NamespaceObj :=
  ⟨remappedName, [], [], .obj []⟩

/-- Typed extraction of a string-to-string map during `json.Unmarshal`
into `v1.Namespace`: absent is the zero value, mistyped is an
unmarshal error (`none`). -/
def strMapField (j : Json) (path : List String) : Option (List (String × String)) :=
  match nestedField j path with
  | .ok none => some []
  | .ok (some (.obj fs)) =>
    if fs.all (fun kv => kv.2.isStr) then
      some (fs.filterMap (fun kv =>
        match kv.2 with
        | .str s => some (kv.1, s)
        | _ => none))
    else none
  | _ => none

/-- Model of unmarshalling the backed-up document into `v1.Namespace`,
keeping the parts `getNamespace` copies: labels, annotations, spec. -/
def parseNamespaceObj (j : Json) : Option (List (String × String) × List (String × String) × Json) :=
  match strMapField j ["metadata", "labels"] with
  | none => none
  | some lbls =>
    match strMapField j ["metadata", "annotations"] with
    | none => none
    | some annots =>
      match nestedField j ["spec"] with
      | .ok none => some (lbls, annots, .obj [])
      | .ok (some (.obj fs)) => some (lbls, annots, .obj fs)
      | _ => none

/-- Model of `getNamespace`: the backed-up namespace object under the
remapped name when present and readable, else a bare object carrying
only the target name. -/
def getNamespace (archGet : String → Option Json) (nsName remappedName : String) : NamespaceObj :=
  match archGet nsName with
  | none => bareNamespace remappedName
  | some j =>
    match parseNamespaceObj j with
    | none => bareNamespace remappedName
    | some (lbls, annots, spec) => ⟨remappedName, lbls, annots, spec⟩

/-- Observable step of the per-namespace loop: an attempted
get-or-create of the target namespace, a `restoreResource` call into
it, or a system error after a failed ensure. -/
inductive NsEvent where
  | ensure (ns : NamespaceObj)
  | restoreRes (ns : String)
  | ensureErr (msg : String)
deriving Repr, DecidableEq

/-- Context of the namespace walk inside `restoreFromArchive`: the
rename mapping, the namespace include/exclude filter, archive access to
the backed-up namespace objects, and whether `EnsureNamespaceExists`
succeeds for a given object. -/
structure NsCtx where
  mapping : List (String × String)
  nsFilter : String → Bool
  archGet : String → Option Json
  ensureOK : NamespaceObj → Bool

/-- Model of the namespace loop of `restoreFromArchive` (lines 390-422):
skip filtered namespaces, remap through the mapping, ensure the target
namespace exists when not yet verified (recording it in the verified
set only on success), then restore the items of this resource type into
the target namespace. -/
def processNamespaces (ctx : NsCtx) : List String → List String → List NsEvent × List String
  | [], existing => ([], existing)
  | n :: rest, existing =>
    if ¬ ctx.nsFilter n then processNamespaces ctx rest existing
    else
      let mapped := (lookupKey ctx.mapping n).getD n
      if existing.contains mapped then
        let r := processNamespaces ctx rest existing
        (.restoreRes mapped :: r.1, r.2)
      else
        let nsObj := getNamespace ctx.archGet n mapped
        if ctx.ensureOK nsObj then
          let r := processNamespaces ctx rest (insertString existing mapped)
          (.ensure nsObj :: .restoreRes mapped :: r.1, r.2)
        else
          let r := processNamespaces ctx rest existing
          (.ensure nsObj :: .ensureErr n :: r.1, r.2)

/-! ### PV readiness wait (`waitForReady`) -/

/-- Watch event types (`watch.EventType`). -/
inductive WEventType where
  | added
  | modified
  | deleted
  | errorType
deriving Repr, DecidableEq

/-- A watch event; `obj = none` models an event object that is not an
`*unstructured.Unstructured`. -/
structure WEvent where
  type : WEventType
  obj : Option Json

/-- Model of `waitForReady` over the finite list of events the watch
channel delivers before the timeout fires: return the object of the
first Added/Modified event whose name matches and which is ready;
exhausting the list models the timeout (the function returns an
error). -/
def waitForReady (events : List WEvent) (name : String) (ready : Json → Bool) : Option Json :=
  match events with
  | [] => none
  | e :: rest =>
    if e.type ≠ .added ∧ e.type ≠ .modified then waitForReady rest name ready
    else
      match e.obj with
      | none => waitForReady rest name ready
      | some o =>
        if getName o ≠ name then waitForReady rest name ready
        else if ¬ ready o then waitForReady rest name ready
        else some o

/-- Model of the readiness-wait task body spawned in `restoreResource`
(lines 640-647): a failed wait adds a timeout warning to the
system-scoped warnings; nothing is ever added to the errors. -/
def pvWaitTask (events : List WEvent) (name : String) (warnings : RestoreResult) : RestoreResult :=
  if (waitForReady events name isPVReady).isNone then
    addArkError warnings ("timeout reached waiting for persistent volume " ++ name ++ " to become ready")
  else warnings

/-! ### Archive reader (`gzipTarReader`) -/

/-- Directory entry as `fs.ReadDir` reports it. -/
structure FSDirEntry where
  entryName : String
  isDir : Bool
deriving Repr, DecidableEq

/-- Filesystem collaborator of the archive reader. -/
structure FSModel where
  dirExists : String → Except String Bool
  readDir : String → Except String (List FSDirEntry)
  readFile : String → Except String String
  removeAllOK : String → Bool

/-- Model of `filepath.Join` at the call sites. -/
def joinPath (parts : List String) : String :=
  String.intercalate "/" parts

/-- The `ErrNotExtracted` message. -/
def errNotExtracted : String := "archive has not been extracted"

/-- Archive layout constants (`arkv1api`). -/
def resourcesDir : String := "resources"

def clusterScopedDir : String := "cluster"

def namespaceScopedDir : String := "namespaces"

/-- State of a `gzipTarReader`: the temp directory, empty until
`Extract` completes successfully (it is assigned only at the very end
of a fully successful extraction). -/
structure GzipTarReader where
  tempDir : String
deriving Repr, DecidableEq

/-- Model of `NewGzipTarReader`: no extraction yet. -/
def newGzipTarReader : GzipTarReader := ⟨""⟩

/-- Each reader operation returns its result together with the list of
filesystem paths it touched, so that "no filesystem access" is an
explicit conclusion. -/
def readerGetResourceScope (r : GzipTarReader) (fs : FSModel) (groupResource : String) :
    Except String (String × Bool) × List String :=
  if r.tempDir = "" then (.error errNotExtracted, [])
  else
    let dir := joinPath [r.tempDir, resourcesDir, groupResource]
    match fs.dirExists dir with
    | .error e => (.error ("error checking existence of directory " ++ dir ++ ": " ++ e), [dir])
    | .ok false => (.ok ("", false), [dir])
    | .ok true =>
      let cdir := joinPath [dir, clusterScopedDir]
      match fs.dirExists cdir with
      | .error e => (.error ("error checking existence of directory " ++ cdir ++ ": " ++ e), [dir, cdir])
      | .ok true => (.ok ("cluster", true), [dir, cdir])
      | .ok false => (.ok ("namespace", true), [dir, cdir])

/-- Model of `gzipTarReader.ListNamespaces`. -/
def readerListNamespaces (r : GzipTarReader) (fs : FSModel) (groupResource : String) :
    Except String (List String) × List String :=
  if r.tempDir = "" then (.error errNotExtracted, [])
  else
    match readerGetResourceScope r fs groupResource with
    | (.error e, t) => (.error e, t)
    | (.ok (scope, found), t) =>
      if ¬ found then (.error ("resource " ++ groupResource ++ " not found in archive"), t)
      else if scope ≠ "namespace" then
        (.error ("resource " ++ groupResource ++ " is not namespace-scoped"), t)
      else
        let dir := joinPath [r.tempDir, resourcesDir, groupResource, namespaceScopedDir]
        match fs.readDir dir with
        | .error e => (.error ("error reading contents of directory " ++ dir ++ ": " ++ e), t ++ [dir])
        | .ok entries =>
          (.ok ((entries.filter (fun fi => fi.isDir)).map (fun fi => fi.entryName)), t ++ [dir])

/-- Model of `gzipTarReader.ListContents`. -/
def readerListContents (r : GzipTarReader) (fs : FSModel) (groupResource ns : String) :
    Except String (List String) × List String :=
  if r.tempDir = "" then (.error errNotExtracted, [])
  else
    let dir :=
      if ns = "" then joinPath [r.tempDir, resourcesDir, groupResource, clusterScopedDir]
      else joinPath [r.tempDir, resourcesDir, groupResource, namespaceScopedDir, ns]
    match fs.readDir dir with
    | .error e => (.error ("error reading directory " ++ dir ++ ": " ++ e), [dir])
    | .ok entries => (.ok (entries.map (fun f => f.entryName)), [dir])

/-- Model of `gzipTarReader.Get`. -/
def readerGet (r : GzipTarReader) (fs : FSModel) (groupResource ns itemName : String) :
    Except String String × List String :=
  if r.tempDir = "" then (.error errNotExtracted, [])
  else
    let filename :=
      if ns = "" then joinPath [r.tempDir, resourcesDir, groupResource, clusterScopedDir, itemName]
      else joinPath [r.tempDir, resourcesDir, groupResource, namespaceScopedDir, ns, itemName]
    match fs.readFile filename with
    | .error e => (.error ("error reading file " ++ filename ++ ": " ++ e), [filename])
    | .ok bytes => (.ok bytes, [filename])

/-- Model of `gzipTarReader.Close`: nil without removing anything when
nothing was extracted, else remove the temp directory. -/
def readerClose (r : GzipTarReader) (fs : FSModel) : Except String Unit × List String :=
  if r.tempDir = "" then (.ok (), [])
  else if fs.removeAllOK r.tempDir then (.ok (), [r.tempDir])
  else (.error ("error removing temp dir " ++ r.tempDir), [r.tempDir])

/-! ### Shared concrete fixtures for witnesses -/

/-- A PV restorer with nothing configured. -/
def emptyPVRestorer : PVRestorer := ⟨none, none, [], none⟩

/-- Item context with the given selector, resource type and namespace
and no snapshots, actions or restic restorer. -/
def mkCtx (sel : Selector) (gr : GroupResource) (ns : String) : ItemCtx :=
  ⟨sel, gr, ns, "restore-1", "backup-1", [], emptyPVRestorer, [], false⟩

/-- The initial state of a `restoreResource` call against an empty
cluster. -/
def st0 : RState := ⟨[], [], false, [], [], [], [], emptyResult, emptyResult, false⟩

/-- A plain running pod document. -/
def podObj : Json :=
  .obj [("apiVersion", .str "v1"), ("kind", .str "Pod"),
        ("metadata", .obj [("name", .str "p1"),
                           ("labels", .obj [("app", .str "web")])]),
        ("status", .obj [("phase", .str "Running")])]

/-- A filesystem that answers every call trivially. -/
def trivialFS : FSModel :=
  ⟨fun _ => .ok false, fun _ => .ok [], fun _ => .ok "", fun _ => true⟩

/-! ### C10 — archive reader before extraction -/

/-- C10: on a reader whose extraction has not completed (its temp
directory is still empty, as `NewGzipTarReader` builds it and as a
failed `Extract` leaves it), `GetResourceScope`, `ListNamespaces`,
`ListContents` and `Get` all return the `archive has not been
extracted` error with no filesystem access, and `Close` returns nil
without removing anything. -/
theorem c10_reader_not_extracted (r : GzipTarReader) (h : r.tempDir = "") :
    (∀ fs gr, readerGetResourceScope r fs gr = (.error errNotExtracted, [])) ∧
    (∀ fs gr, readerListNamespaces r fs gr = (.error errNotExtracted, [])) ∧
    (∀ fs gr ns, readerListContents r fs gr ns = (.error errNotExtracted, [])) ∧
    (∀ fs gr ns n, readerGet r fs gr ns n = (.error errNotExtracted, [])) ∧
    (∀ fs, readerClose r fs = (.ok (), [])) := by
  refine ⟨?_, ?_, ?_, ?_, ?_⟩ <;> intros <;>
    simp [readerGetResourceScope, readerListNamespaces, readerListContents,
      readerGet, readerClose, h]

/-- Witness for C10 at the freshly constructed reader. -/
theorem c10_reader_not_extracted_witness :
    readerGet newGzipTarReader trivialFS "pods" "ns-1" "p1.json" = (.error errNotExtracted, []) ∧
    readerClose newGzipTarReader trivialFS = (.ok (), []) :=
  ⟨(c10_reader_not_extracted newGzipTarReader rfl).2.2.2.1 trivialFS "pods" "ns-1" "p1.json",
   (c10_reader_not_extracted newGzipTarReader rfl).2.2.2.2 trivialFS⟩

/-! ### C6 — global label selector -/

/-- C6: an absent restore label selector yields a selector that matches
every label set (including the empty one) — unlike the Nothing selector
that a nil selector would have produced — and an item whose labels do
not match the global selector is skipped entirely: no creation is
attempted, no error and no warning is recorded, the state is untouched. -/
theorem c6_selector_gate (ctx : ItemCtx) (st : RState) (file : String) (obj : Json)
    (h : ctx.selector.matches (getLabels obj) = false) :
    restoreItem ctx st file obj = st ∧
    (∀ lbls, (buildGlobalSelector none).matches lbls = true) ∧
    (∀ lbls, (labelSelectorAsSelector none).matches lbls = false) := by
  refine ⟨?_, ?_, ?_⟩
  · simp [restoreItem, h]
  · intro lbls
    simp [buildGlobalSelector, labelSelectorAsSelector, Selector.matches]
  · intro lbls
    simp [labelSelectorAsSelector, Selector.matches]

/-- Witness for C6: a selector requiring `app=api` does not match the
sample pod (labelled `app=web`), which is skipped untouched. -/
theorem c6_selector_gate_witness :
    restoreItem (mkCtx (.requirements [("app", "api")]) grPods "ns-1") st0 "p1.json" podObj = st0 ∧
    (buildGlobalSelector none).matches [] = true :=
  ⟨(c6_selector_gate (mkCtx (.requirements [("app", "api")]) grPods "ns-1") st0 "p1.json" podObj
      (by decide)).1,
   (c6_selector_gate (mkCtx (.requirements [("app", "api")]) grPods "ns-1") st0 "p1.json" podObj
      (by decide)).2.1 []⟩

/-! ### C5 — completed Pods and Jobs are skipped -/

/-- C5: a Pod whose `status.phase` is Succeeded or Failed, and a Job
whose `status.completionTime` is present and non-empty, are skipped
without any create call and without recording an error (the state is
entirely untouched), and no resource kind other than Pods and Jobs is
ever considered completed. -/
theorem c5_completed_skip (ctx : ItemCtx) (st : RState) (file : String) (obj : Json)
    (h : (ctx.groupResource = grPods ∧
            (nestedString obj ["status", "phase"] = .ok (some "Failed") ∨
             nestedString obj ["status", "phase"] = .ok (some "Succeeded"))) ∨
         (ctx.groupResource = grJobs ∧
            ∃ ct, nestedString obj ["status", "completionTime"] = .ok (some ct) ∧ ct ≠ "")) :
    restoreItem ctx st file obj = st ∧
    (∀ (o : Json) (gr : GroupResource), gr ≠ grPods → gr ≠ grJobs → isCompleted o gr = .ok false) := by
  have hcomp : isCompleted obj ctx.groupResource = .ok true := by
    rcases h with ⟨hgr, hp | hp⟩ | ⟨hgr, ct, hct, hne⟩
    · simp [isCompleted, hgr, hp]
    · simp [isCompleted, hgr, hp]
    · have : grJobs ≠ grPods := by decide
      simp [isCompleted, hgr, this, hct, hne]
  constructor
  · cases hsel : ctx.selector.matches (getLabels obj) with
    | false => simp [restoreItem, hsel]
    | true => simp [restoreItem, hsel, hcomp]
  · intro o gr h1 h2
    simp [isCompleted, h1, h2]

/-- A succeeded pod document. -/
def succeededPod : Json :=
  .obj [("apiVersion", .str "v1"), ("kind", .str "Pod"),
        ("metadata", .obj [("name", .str "p2")]),
        ("status", .obj [("phase", .str "Succeeded")])]

/-- Witness for C5: the succeeded pod is skipped entirely, no create
call, no error. -/
theorem c5_completed_skip_witness :
    restoreItem (mkCtx (.requirements []) grPods "ns-1") st0 "p2.json" succeededPod = st0 :=
  (c5_completed_skip (mkCtx (.requirements []) grPods "ns-1") st0 "p2.json" succeededPod
    (Or.inl ⟨rfl, Or.inr rfl⟩)).1

/-! ### C7 — action warnings (code bug) -/

/-- A config-map document for the action tests. -/
def cmObj : Json :=
  .obj [("apiVersion", .str "v1"), ("kind", .str "ConfigMap"),
        ("metadata", .obj [("name", .str "cm1")])]

/-- An action that matches everything and returns the item plus a
warning and a nil hard error. -/
def warnOnlyAction : ResolvedActionM :=
  ⟨.requirements [], fun o => (some o, some "deprecated field dropped", none)⟩

/-- Item context carrying the warn-only action. -/
def ctxWarnAction : ItemCtx :=
  { mkCtx (.requirements []) ⟨"", "configmaps"⟩ "ns-1" with actions := [warnOnlyAction] }

/-- C7 failing input: when an action returns a warning together with a
nil hard error, the code records `errors.Wrapf(err, ...)` — which is nil
— and `addToResult` then calls `Error()` on the nil error and panics;
the warning is never recorded and the item is never created, instead of
the warning being recorded and processing continuing as the spec says. -/
theorem c7_warning_nil_error_panics :
    (runActions "ns-1" "cm1.json" "configmaps" emptyResult emptyResult cmObj [warnOnlyAction]).panicked = true ∧
    (runActions "ns-1" "cm1.json" "configmaps" emptyResult emptyResult cmObj [warnOnlyAction]).warnings = emptyResult ∧
    (restoreItem ctxWarnAction st0 "cm1.json" cmObj).panicked = true ∧
    (restoreItem ctxWarnAction st0 "cm1.json" cmObj).creates = [] ∧
    (restoreItem ctxWarnAction st0 "cm1.json" cmObj).warnings = emptyResult :=
  ⟨rfl, rfl, rfl, rfl, rfl⟩

/-! ### C3 — resource prioritization -/

/-- Spec-side description of the first phase: the configured priority
entries, resolved, in configured order, without those the filter
rejects. -/
def priorityList (rf : String → Option GroupResource) (inc : String → Bool)
    (priorities : List String) : List GroupResource :=
  (priorities.filterMap rf).filter (fun gr => inc gr.canonical)

/-- Spec-side description of the remainder before sorting: every
discovered resource type admitted by the filter and not among the
resolved priorities, in discovery order. -/
def discoveredAdmitted (resources : List APIResourceGroup) (inc : String → Bool)
    (seen : List String) : List GroupResource :=
  (resources.map (fun g =>
    match parseGroupVersion g.groupVersion with
    | some gv => g.apiResources.filterMap (fun n =>
        let gr : GroupResource := ⟨gv.group, n⟩
        if inc gr.canonical && !seen.contains gr.canonical then some gr else none)
    | none => [])).flatten

/-- When every priority entry resolves, phase one returns exactly the
resolved-and-admitted entries in configured order. -/
theorem resolvePriorities_eq (rf : String → Option GroupResource) (inc : String → Bool)
    (priorities : List String) (h : ∀ p ∈ priorities, (rf p).isSome) :
    resolvePriorities rf inc priorities = some (priorityList rf inc priorities) := by
  induction priorities with
  | nil => simp [resolvePriorities, priorityList]
  | cons p ps ih =>
    obtain ⟨gr, hgr⟩ := Option.isSome_iff_exists.mp (h p (by simp))
    have hps : ∀ q ∈ ps, (rf q).isSome := fun q hq => h q (by simp [hq])
    by_cases hinc : inc gr.canonical
    · simp [resolvePriorities, hgr, ih hps, priorityList, List.filterMap_cons,
        List.filter_cons, hinc]
    · simp [resolvePriorities, hgr, ih hps, priorityList, List.filterMap_cons,
        List.filter_cons, hinc]

/-- When some priority entry does not resolve, phase one (and hence the
whole call) fails. -/
theorem resolvePriorities_none (rf : String → Option GroupResource) (inc : String → Bool)
    (priorities : List String) (h : ∃ p ∈ priorities, rf p = none) :
    resolvePriorities rf inc priorities = none := by
  induction priorities with
  | nil => simp at h
  | cons p ps ih =>
    rcases h with ⟨q, hq, hnone⟩
    rcases List.mem_cons.mp hq with rfl | hq'
    · simp [resolvePriorities, hnone]
    · cases hrf : rf p with
      | none => simp [resolvePriorities, hrf]
      | some gr => simp [resolvePriorities, hrf, ih ⟨q, hq', hnone⟩]

/-- When every discovered group/version parses, phase two collects
exactly the admitted, unseen discovered resources in discovery order. -/
theorem collectByName_eq (inc : String → Bool) (seen : List String)
    (resources : List APIResourceGroup)
    (h : ∀ g ∈ resources, (parseGroupVersion g.groupVersion).isSome) :
    collectByName inc seen resources = some (discoveredAdmitted resources inc seen) := by
  induction resources with
  | nil => simp [collectByName, discoveredAdmitted]
  | cons g gs ih =>
    obtain ⟨gv, hgv⟩ := Option.isSome_iff_exists.mp (h g (by simp))
    have hgs : ∀ x ∈ gs, (parseGroupVersion x.groupVersion).isSome := fun x hx => h x (by simp [hx])
    simp [collectByName, hgv, ih hgs, discoveredAdmitted]

/-- C3: when every configured priority entry resolves through
discovery (and every discovered group/version parses), the result is
the resolved-and-admitted priority entries in configured order followed
by a remainder that is a permutation of the other admitted discovered
resource types, sorted by canonical name, and duplicate-free whenever
the discovered canonical names are; when some priority entry cannot be
resolved, the whole call fails. -/
theorem c3_prioritize_resources (rf : String → Option GroupResource)
    (resources : List APIResourceGroup) (priorities : List String) (inc : String → Bool) :
    ((∀ p ∈ priorities, (rf p).isSome) →
     (∀ g ∈ resources, (parseGroupVersion g.groupVersion).isSome) →
      ∃ rest, prioritizeResources rf resources priorities inc
            = some (priorityList rf inc priorities ++ rest)
        ∧ rest.Perm (discoveredAdmitted resources inc
            ((priorityList rf inc priorities).map GroupResource.canonical))
        ∧ List.Sorted grLE rest
        ∧ (((discoveredAdmitted resources inc
              ((priorityList rf inc priorities).map GroupResource.canonical)).map
                GroupResource.canonical).Nodup → rest.Nodup))
    ∧ ((∃ p ∈ priorities, rf p = none) →
        prioritizeResources rf resources priorities inc = none) := by
  constructor
  · intro h1 h2
    refine ⟨(discoveredAdmitted resources inc
      ((priorityList rf inc priorities).map GroupResource.canonical)).insertionSort grLE,
      ?_, ?_, ?_, ?_⟩
    · simp [prioritizeResources, resolvePriorities_eq rf inc priorities h1,
        collectByName_eq inc _ resources h2]
    · exact List.perm_insertionSort grLE _
    · exact List.sorted_insertionSort grLE _
    · intro hnd
      have hperm := List.perm_insertionSort grLE (discoveredAdmitted resources inc
        ((priorityList rf inc priorities).map GroupResource.canonical))
      have := (hperm.map GroupResource.canonical).nodup_iff.mpr hnd
      exact this.of_map
  · intro h
    simp [prioritizeResources, resolvePriorities_none rf inc priorities h]

/-- Concrete discovery resolution for the witness. -/
def rfEx : String → Option GroupResource := fun s =>
  if s = "namespaces" then some ⟨"", "namespaces"⟩
  else if s = "persistentvolumes" then some ⟨"", "persistentvolumes"⟩
  else none

/-- Concrete discovered resources for the witness. -/
def resourcesEx : List APIResourceGroup :=
  [⟨"v1", ["pods", "persistentvolumes", "namespaces"]⟩, ⟨"apps/v1", ["deployments"]⟩]

/-- Concrete priority configuration for the witness. -/
def prioritiesEx : List String := ["namespaces", "persistentvolumes"]

/-- Witness for C3 at the concrete configuration. -/
theorem c3_prioritize_resources_witness :
    (∀ p ∈ prioritiesEx, (rfEx p).isSome) ∧
    ∃ rest, prioritizeResources rfEx resourcesEx prioritiesEx (fun _ => true)
          = some (priorityList rfEx (fun _ => true) prioritiesEx ++ rest)
      ∧ rest.Perm (discoveredAdmitted resourcesEx (fun _ => true)
          ((priorityList rfEx (fun _ => true) prioritiesEx).map GroupResource.canonical))
      ∧ List.Sorted grLE rest
      ∧ (((discoveredAdmitted resourcesEx (fun _ => true)
            ((priorityList rfEx (fun _ => true) prioritiesEx).map GroupResource.canonical)).map
              GroupResource.canonical).Nodup → rest.Nodup) :=
  ⟨by decide,
   (c3_prioritize_resources rfEx resourcesEx prioritiesEx (fun _ => true)).1
     (by decide) (by decide)⟩

/-! ### C4 — namespace remapping and creation -/

/-- Namespace field of a document, as `obj.GetNamespace()` reads it. -/
def getNamespaceOf (obj : Json) : String :=
  match getAtPath obj ["metadata", "namespace"] with
  | .ok (.str s) => s
  | _ => ""

/-- Looking up the key just set yields the new value. -/
theorem lookup_setKey_self (fs : List (String × Json)) (k : String) (v : Json) :
    lookupKey (setKey fs k v) k = some v := by
  induction fs with
  | nil => simp [setKey, lookupKey]
  | cons x xs ih =>
    by_cases h : x.1 = k
    · simp [setKey, h, lookupKey]
    · simp [setKey, h, lookupKey, ih]

/-- Setting one key leaves lookups of other keys unchanged. -/
theorem lookup_setKey_ne (fs : List (String × Json)) (k k' : String) (v : Json)
    (h : k' ≠ k) : lookupKey (setKey fs k v) k' = lookupKey fs k' := by
  have hk : ¬ (k = k') := fun hh => h hh.symm
  induction fs with
  | nil => simp [setKey, lookupKey, hk]
  | cons x xs ih =>
    by_cases hx : x.1 = k
    · simp [setKey, hx, lookupKey, hk]
    · simp [setKey, hx, lookupKey, ih]

/-- Reading back a value just written along the same path. -/
theorem getAtPath_setAtPath_self : ∀ (o : Json) (path : List String) (v : Json),
    getAtPath (setAtPath o path v) path = .ok v
  | o, [], v => by cases o <;> simp [setAtPath, getAtPath]
  | .obj fs, p :: ps, v => by
    simp [setAtPath, getAtPath, lookup_setKey_self, getAtPath_setAtPath_self _ ps v]
  | .null, p :: ps, v => by
    simp [setAtPath, getAtPath, lookupKey, getAtPath_setAtPath_self (.obj []) ps v]
  | .bool _, p :: ps, v => by
    simp [setAtPath, getAtPath, lookupKey, getAtPath_setAtPath_self (.obj []) ps v]
  | .num _, p :: ps, v => by
    simp [setAtPath, getAtPath, lookupKey, getAtPath_setAtPath_self (.obj []) ps v]
  | .str _, p :: ps, v => by
    simp [setAtPath, getAtPath, lookupKey, getAtPath_setAtPath_self (.obj []) ps v]
  | .arr _, p :: ps, v => by
    simp [setAtPath, getAtPath, lookupKey, getAtPath_setAtPath_self (.obj []) ps v]

/-- `SetNamespace` makes the namespace field read back as set. -/
theorem getNamespaceOf_setNamespaceField (o : Json) (ns : String) :
    getNamespaceOf (setNamespaceField o ns) = ns := by
  simp [getNamespaceOf, setNamespaceField, getAtPath_setAtPath_self]

/-- `SetLabels` (writing `metadata.labels`) does not disturb the
namespace field. -/
theorem getNamespaceOf_setLabels (o : Json) (m : List (String × String)) :
    getNamespaceOf (setLabels o m) = getNamespaceOf o := by
  cases o with
  | obj fs =>
    cases hmd : lookupKey fs "metadata" with
    | none =>
      simp [getNamespaceOf, setLabels, setAtPath, getAtPath, lookup_setKey_self, hmd,
        lookupKey]
    | some md =>
      cases md <;>
        simp [getNamespaceOf, setLabels, setAtPath, getAtPath, lookup_setKey_self, hmd,
          lookupKey, lookup_setKey_ne _ "labels" "namespace" _ (by decide)]
  | null => simp [getNamespaceOf, setLabels, setAtPath, getAtPath, lookupKey]
  | bool b => simp [getNamespaceOf, setLabels, setAtPath, getAtPath, lookupKey]
  | num n => simp [getNamespaceOf, setLabels, setAtPath, getAtPath, lookupKey]
  | str s => simp [getNamespaceOf, setLabels, setAtPath, getAtPath, lookupKey]
  | arr xs => simp [getNamespaceOf, setLabels, setAtPath, getAtPath, lookupKey]

/-- Stamping the restore labels does not disturb the namespace field. -/
theorem getNamespaceOf_addRestoreLabels (o : Json) (rn bn : String) :
    getNamespaceOf (addRestoreLabels o rn bn) = getNamespaceOf o := by
  simp [addRestoreLabels, getNamespaceOf_setLabels]

/-- The PV branch never touches the create log, the cluster, or the
patch log. -/
theorem pvBranch_preserves (ctx : ItemCtx) (st : RState) (file name : String) (obj : Json) :
    (pvBranch ctx st file name obj).1.creates = st.creates ∧
    (pvBranch ctx st file name obj).1.cluster = st.cluster ∧
    (pvBranch ctx st file name obj).1.patches = st.patches ∧
    (pvBranch ctx st file name obj).1.panicked = st.panicked := by
  unfold pvBranch
  dsimp only
  repeat' split
  all_goals exact ⟨rfl, rfl, rfl, rfl⟩

/-- The PVC branch never touches the create log, the cluster, the patch
log, or the provisioning set. -/
theorem pvcBranch_preserves (ctx : ItemCtx) (st : RState) (obj : Json) :
    (pvcBranch ctx st obj).1.creates = st.creates ∧
    (pvcBranch ctx st obj).1.cluster = st.cluster ∧
    (pvcBranch ctx st obj).1.patches = st.patches ∧
    (pvcBranch ctx st obj).1.pvsToProvision = st.pvsToProvision := by
  unfold pvcBranch
  dsimp only
  repeat' split
  all_goals exact ⟨rfl, rfl, rfl, rfl⟩

/-- Conflict handling records warnings or patches but never creates,
never errors, and never panics; the provisioning set is untouched. -/
theorem handleAlreadyExists_preserves (ctx : ItemCtx) (st : RState) (name : String) (obj : Json) :
    (handleAlreadyExists ctx st name obj).creates = st.creates ∧
    (handleAlreadyExists ctx st name obj).errs = st.errs ∧
    (handleAlreadyExists ctx st name obj).panicked = st.panicked ∧
    (handleAlreadyExists ctx st name obj).pvsToProvision = st.pvsToProvision := by
  unfold handleAlreadyExists
  dsimp only
  repeat' split
  all_goals exact ⟨rfl, rfl, rfl, rfl⟩

/-- The create step either hits conflict handling (create log
untouched) or appends exactly the attempted object to the create log. -/
theorem createPhase_creates_shape (ctx : ItemCtx) (st' : RState) (name : String) (o : Json) :
    (createPhase ctx st' name o).creates = st'.creates ∨
    (createPhase ctx st' name o).creates = st'.creates ++ [(name, o)] := by
  unfold createPhase
  cases hx : (lookupKey st'.cluster name).isSome with
  | true =>
    refine Or.inl ?_
    simp only [hx, if_pos]
    exact (handleAlreadyExists_preserves ctx st' name o).1
  | false =>
    refine Or.inr ?_
    simp only [hx]
    rw [if_neg (by simp)]
    split <;> rfl

/-- Every create issued by one `restoreItem` call either was already in
the log or appends exactly one entry: the processed object, carrying
the target namespace whenever one is set. -/
theorem restoreItem_creates_shape (ctx : ItemCtx) (st : RState) (file : String) (obj : Json) :
    (restoreItem ctx st file obj).creates = st.creates ∨
    ∃ o, (restoreItem ctx st file obj).creates = st.creates ++ [(getName obj, o)] ∧
      (ctx.ns ≠ "" → getNamespaceOf o = ctx.ns) := by
  unfold restoreItem
  cases hsel : ctx.selector.matches (getLabels obj) with
  | false => simp [hsel]
  | true =>
    cases hcomp : isCompleted obj ctx.groupResource with
    | error e => simp [hsel, hcomp]
    | ok b =>
      cases b with
      | true => simp [hsel, hcomp]
      | false =>
        by_cases hmir : ctx.groupResource = grPods
            ∧ ((getAnnotations obj).lookup mirrorPodAnnotationKey).getD "" ≠ ""
        · simp [hsel, hcomp, hmir]
        · rcases hpv : pvBranch ctx st file (getName obj) obj with ⟨st1, o1⟩
          have h1 : st1.creates = st.creates := by
            have := (pvBranch_preserves ctx st file (getName obj) obj).1
            rw [hpv] at this
            exact this
          cases o1 with
          | none => simp only [hsel, hcomp, hmir, hpv]; simp [h1]
          | some obj1 =>
            rcases hpvc : pvcBranch ctx st1 obj1 with ⟨st2, o2⟩
            have h2 : st2.creates = st.creates := by
              have := (pvcBranch_preserves ctx st1 obj1).1
              rw [hpvc] at this
              exact this.trans h1
            cases o2 with
            | none => simp only [hsel, hcomp, hmir, hpv, hpvc]; simp [h2]
            | some obj2 =>
              rcases hact : runActions ctx.ns file ctx.groupResource.canonical
                  st2.warnings st2.errs obj2 ctx.actions with ⟨o3, w, e, p⟩
              cases o3 with
              | none =>
                simp only [hsel, hcomp, hmir, hpv, hpvc, restoreItemTail, hact]
                simp [h2]
              | some obj3 =>
                cases hres : resetMetadataAndStatus obj3 with
                | error er =>
                  simp only [hsel, hcomp, hmir, hpv, hpvc, restoreItemTail, hact, hres]
                  simp [h2]
                | ok obj4 =>
                  simp only [hsel, hcomp, hmir, hpv, hpvc, restoreItemTail, hact, hres]
                  rcases createPhase_creates_shape ctx
                      { st2 with warnings := w, errs := e } (getName obj)
                      (addRestoreLabels
                        (if ctx.ns ≠ "" then setNamespaceField obj4 ctx.ns else obj4)
                        ctx.restoreName ctx.backupName) with hA | hB
                  · exact Or.inl (hA.trans (by simp [h2]))
                  · refine Or.inr ⟨addRestoreLabels
                      (if ctx.ns ≠ "" then setNamespaceField obj4 ctx.ns else obj4)
                      ctx.restoreName ctx.backupName, hB.trans (by simp [h2]), fun hns => ?_⟩
                    rw [getNamespaceOf_addRestoreLabels]
                    simp [hns, getNamespaceOf_setNamespaceField]

/-- C4: under the rename mapping, a namespace entry whose target has not
been verified yet is ensured (get-or-create) strictly before the items
of this resource type are restored into the target namespace, the
ensured object is built from the backed-up namespace object when the
archive yields one (labels, annotations, spec, under the target name)
and is bare otherwise, a target already verified is not ensured again,
and every object created while restoring into a target namespace
carries that namespace. -/
theorem c4_namespace_remapping (ctx : NsCtx) (rest existing : List String) (n target : String)
    (hmap : lookupKey ctx.mapping n = some target)
    (hfilter : ctx.nsFilter n = true) :
    (existing.contains target = false →
      ctx.ensureOK (getNamespace ctx.archGet n target) = true →
      processNamespaces ctx (n :: rest) existing =
        (NsEvent.ensure (getNamespace ctx.archGet n target) :: NsEvent.restoreRes target ::
          (processNamespaces ctx rest (insertString existing target)).1,
         (processNamespaces ctx rest (insertString existing target)).2))
  ∧ (existing.contains target = true →
      processNamespaces ctx (n :: rest) existing =
        (NsEvent.restoreRes target :: (processNamespaces ctx rest existing).1,
         (processNamespaces ctx rest existing).2))
  ∧ (∀ (j : Json) (lbls annots : List (String × String)) (spec : Json),
      ctx.archGet n = some j → parseNamespaceObj j = some (lbls, annots, spec) →
      getNamespace ctx.archGet n target = ⟨target, lbls, annots, spec⟩)
  ∧ (ctx.archGet n = none → getNamespace ctx.archGet n target = bareNamespace target)
  ∧ (∀ (ictx : ItemCtx) (st : RState) (file : String) (obj : Json),
      ictx.ns = target → target ≠ "" →
      ∀ e ∈ (restoreItem ictx st file obj).creates,
        e ∈ st.creates ∨ getNamespaceOf e.2 = target) := by
  refine ⟨?_, ?_, ?_, ?_, ?_⟩
  · intro hnotin hok
    have hnot : target ∉ existing := by simpa using hnotin
    simp [processNamespaces, hfilter, hmap, hnot, hok]
  · intro hin
    have hmem : target ∈ existing := by simpa using hin
    simp [processNamespaces, hfilter, hmap, hmem]
  · intro j lbls annots spec hget hparse
    simp [getNamespace, hget, hparse]
  · intro hget
    simp [getNamespace, hget]
  · intro ictx st file obj hns htarget e he
    rcases restoreItem_creates_shape ictx st file obj with hA | ⟨o, hB, hcons⟩
    · rw [hA] at he
      exact Or.inl he
    · rw [hB] at he
      rcases List.mem_append.mp he with h | h
      · exact Or.inl h
      · simp at h
        subst h
        exact Or.inr (by rw [← hns]; exact hcons (by rw [hns]; exact htarget))

/-- Backed-up namespace objects of the witness archive. -/
def nsArchEx : String → Option Json := fun s =>
  if s = "ns-1" then
    some (.obj [("apiVersion", .str "v1"), ("kind", .str "Namespace"),
      ("metadata", .obj [("name", .str "ns-1"), ("labels", .obj [("team", .str "a")])]),
      ("spec", .obj [("finalizers", .arr [.str "kubernetes"])])])
  else none

/-- Witness namespace-walk context with mapping `ns-1` to `ns-2`. -/
def nsCtxEx : NsCtx := ⟨[("ns-1", "ns-2")], fun _ => true, nsArchEx, fun _ => true⟩

/-- Witness for C4: the target `ns-2` is ensured, from the backed-up
`ns-1` object, before the restore into `ns-2`. -/
theorem c4_namespace_remapping_witness :
    processNamespaces nsCtxEx ["ns-1"] [] =
      (NsEvent.ensure (getNamespace nsCtxEx.archGet "ns-1" "ns-2") :: NsEvent.restoreRes "ns-2" ::
        (processNamespaces nsCtxEx [] (insertString [] "ns-2")).1,
       (processNamespaces nsCtxEx [] (insertString [] "ns-2")).2) ∧
    getNamespace nsCtxEx.archGet "ns-1" "ns-2" =
      ⟨"ns-2", [("team", "a")], [], .obj [("finalizers", .arr [.str "kubernetes"])]⟩ :=
  ⟨(c4_namespace_remapping nsCtxEx [] [] "ns-1" "ns-2" rfl rfl).1 rfl rfl,
   (c4_namespace_remapping nsCtxEx [] [] "ns-1" "ns-2" rfl rfl).2.2.1 _ _ _ _ rfl rfl⟩

/-! ### C2 — PersistentVolume handling -/

/-- A PV with no snapshot record is returned by the PV restorer with
only `spec.claimRef` and `spec.storageClassName` removed, regardless of
the snapshot/restore flags. -/
theorem executePVAction_no_snapshot (r : PVRestorer) (obj : Json) (spec : List (String × Json))
    (hname : getName obj ≠ "") (hspec : getMap obj ["spec"] = .ok spec)
    (hnb : lookupKey r.volumeBackups (getName obj) = none) :
    executePVAction r obj = .ok (obj.setTop "spec"
      (.obj (deleteKey (deleteKey spec "claimRef") "storageClassName"))) := by
  unfold executePVAction
  simp only [hname, if_false, hspec]
  by_cases h1 : isSetToFalse r.snapshotVolumes
  · simp [h1]
  · by_cases h2 : isSetToFalse r.restorePVs
    · simp [h1, h2]
    · simp [h1, h2, hnb]

/-- When the PV branch lets the item continue, the provisioning set is
untouched. -/
theorem pvBranch_some_pvs (ctx : ItemCtx) (st : RState) (file name : String) (obj : Json)
    (st1 : RState) (o : Json) (h : pvBranch ctx st file name obj = (st1, some o)) :
    st1.pvsToProvision = st.pvsToProvision := by
  unfold pvBranch at h
  dsimp only at h
  repeat' split at h
  all_goals injection h with h1 h2
  all_goals first
    | exact Option.noConfusion h2
    | rw [← h1]

/-- The PV branch either leaves the provisioning set untouched or
inserts exactly the current PV name. -/
theorem pvBranch_pvs (ctx : ItemCtx) (st : RState) (file name : String) (obj : Json) :
    (pvBranch ctx st file name obj).1.pvsToProvision = st.pvsToProvision ∨
    (pvBranch ctx st file name obj).1.pvsToProvision = insertString st.pvsToProvision name := by
  unfold pvBranch
  dsimp only
  repeat' split
  all_goals simp

/-- The create step never touches the provisioning set. -/
theorem createPhase_pvs (ctx : ItemCtx) (st' : RState) (name : String) (o : Json) :
    (createPhase ctx st' name o).pvsToProvision = st'.pvsToProvision := by
  unfold createPhase
  cases hx : (lookupKey st'.cluster name).isSome with
  | true =>
    simp only [hx, if_pos]
    exact (handleAlreadyExists_preserves ctx st' name o).2.2.2
  | false =>
    simp only [hx]
    rw [if_neg (by simp)]
    split <;> rfl

/-- A fresh create appends the object, records no error, and leaves the
provisioning set untouched. -/
theorem createPhase_fresh (ctx : ItemCtx) (st' : RState) (name : String) (o : Json)
    (h : lookupKey st'.cluster name = none) :
    (createPhase ctx st' name o).creates = st'.creates ++ [(name, o)] ∧
    (createPhase ctx st' name o).errs = st'.errs ∧
    (createPhase ctx st' name o).pvsToProvision = st'.pvsToProvision := by
  unfold createPhase
  simp only [h, Option.isSome_none]
  rw [if_neg (by simp)]
  split <;> exact ⟨rfl, rfl, rfl⟩

/-- One item either leaves the provisioning set untouched, or inserts
its own name while creating nothing and leaving the cluster alone. -/
theorem restoreItem_pvs_shape (ctx : ItemCtx) (st : RState) (file : String) (obj : Json) :
    (restoreItem ctx st file obj).pvsToProvision = st.pvsToProvision ∨
    ((restoreItem ctx st file obj).pvsToProvision = insertString st.pvsToProvision (getName obj) ∧
     (restoreItem ctx st file obj).creates = st.creates ∧
     (restoreItem ctx st file obj).cluster = st.cluster) := by
  unfold restoreItem
  cases hsel : ctx.selector.matches (getLabels obj) with
  | false => simp [hsel]
  | true =>
    cases hcomp : isCompleted obj ctx.groupResource with
    | error e => simp [hsel, hcomp]
    | ok b =>
      cases b with
      | true => simp [hsel, hcomp]
      | false =>
        by_cases hmir : ctx.groupResource = grPods
            ∧ ((getAnnotations obj).lookup mirrorPodAnnotationKey).getD "" ≠ ""
        · simp [hsel, hcomp, hmir]
        · rcases hpv : pvBranch ctx st file (getName obj) obj with ⟨st1, o1⟩
          cases o1 with
          | none =>
            simp only [hsel, hcomp, hmir, hpv]
            have hpvs := pvBranch_pvs ctx st file (getName obj) obj
            have hpres := pvBranch_preserves ctx st file (getName obj) obj
            rw [hpv] at hpvs hpres
            rcases hpvs with h | h
            · exact Or.inl (by simpa using h)
            · exact Or.inr ⟨by simpa using h, by simpa using hpres.1, by simpa using hpres.2.1⟩
          | some obj1 =>
            have h1 : st1.pvsToProvision = st.pvsToProvision :=
              pvBranch_some_pvs ctx st file (getName obj) obj st1 obj1 hpv
            rcases hpvc : pvcBranch ctx st1 obj1 with ⟨st2, o2⟩
            have h2 : st2.pvsToProvision = st.pvsToProvision := by
              have := (pvcBranch_preserves ctx st1 obj1).2.2.2
              rw [hpvc] at this
              exact this.trans h1
            cases o2 with
            | none => simp only [hsel, hcomp, hmir, hpv, hpvc]; simp [h2]
            | some obj2 =>
              rcases hact : runActions ctx.ns file ctx.groupResource.canonical
                  st2.warnings st2.errs obj2 ctx.actions with ⟨o3, w, e, p⟩
              cases o3 with
              | none =>
                simp only [hsel, hcomp, hmir, hpv, hpvc, restoreItemTail, hact]
                simp [h2]
              | some obj3 =>
                cases hres : resetMetadataAndStatus obj3 with
                | error er =>
                  simp only [hsel, hcomp, hmir, hpv, hpvc, restoreItemTail, hact, hres]
                  simp [h2]
                | ok obj4 =>
                  simp only [hsel, hcomp, hmir, hpv, hpvc, restoreItemTail, hact, hres]
                  exact Or.inl ((createPhase_pvs ctx _ (getName obj) _).trans (by simp [h2]))

/-- C2 (amended): a PersistentVolume with no snapshot record whose
reclaim policy is Delete is never created and its name goes into the
provisioning set; one with reclaim policy Retain and no snapshot record
IS created — with `spec.claimRef` and `spec.storageClassName` removed,
non-core metadata and status stripped, and the restore identification
labels added, but otherwise unchanged — with no error; and one item
never both extends the provisioning set and creates an object. -/
theorem c2_pv_handling (ctx : ItemCtx) (st : RState) (file : String) (obj : Json)
    (spec : List (String × Json)) (objR : Json)
    (hgr : ctx.groupResource = grPersistentVolumes)
    (hsel : ctx.selector.matches (getLabels obj) = true)
    (hnb : lookupKey ctx.volumeBackups (getName obj) = none) :
    (getString obj ["spec", "persistentVolumeReclaimPolicy"] = .ok "Delete" →
      restoreItem ctx st file obj =
        { st with pvsToProvision := insertString st.pvsToProvision (getName obj) })
  ∧ (getString obj ["spec", "persistentVolumeReclaimPolicy"] = .ok "Retain" →
      getName obj ≠ "" →
      getMap obj ["spec"] = .ok spec →
      lookupKey ctx.pvRestorer.volumeBackups (getName obj) = none →
      resetMetadataAndStatus (obj.setTop "spec"
        (.obj (deleteKey (deleteKey spec "claimRef") "storageClassName"))) = .ok objR →
      ctx.ns = "" → ctx.actions = [] →
      lookupKey st.cluster (getName obj) = none →
      (restoreItem ctx st file obj).creates
          = st.creates ++ [(getName obj, addRestoreLabels objR ctx.restoreName ctx.backupName)]
        ∧ (restoreItem ctx st file obj).errs = st.errs
        ∧ (restoreItem ctx st file obj).pvsToProvision = st.pvsToProvision)
  ∧ (∀ (st' : RState) (f : String) (o : Json),
      (restoreItem ctx st' f o).pvsToProvision = st'.pvsToProvision ∨
      (restoreItem ctx st' f o).creates = st'.creates) := by
  have hcomp : isCompleted obj ctx.groupResource = .ok false := by
    rw [hgr]
    simp [isCompleted, grPersistentVolumes, grPods, grJobs]
  have hmir : ¬ (ctx.groupResource = grPods
      ∧ ((getAnnotations obj).lookup mirrorPodAnnotationKey).getD "" ≠ "") := by
    rw [hgr]
    rintro ⟨hc, -⟩
    simp [grPersistentVolumes, grPods] at hc
  refine ⟨?_, ?_, ?_⟩
  · intro hdel
    have hpv : pvBranch ctx st file (getName obj) obj =
        ({ st with pvsToProvision := insertString st.pvsToProvision (getName obj) }, none) := by
      unfold pvBranch
      simp [hgr, hnb, hdel]
    unfold restoreItem
    simp only [hsel, hcomp, hmir, hpv]
    simp
  · intro hret hname hspec hnb2 hreset hns hacts hfresh
    have hexe : executePVAction ctx.pvRestorer obj = .ok (obj.setTop "spec"
        (.obj (deleteKey (deleteKey spec "claimRef") "storageClassName"))) :=
      executePVAction_no_snapshot ctx.pvRestorer obj spec hname hspec hnb2
    have hprov : (match getString obj ["spec", "persistentVolumeReclaimPolicy"] with
        | Except.ok rp => (lookupKey ctx.volumeBackups (getName obj)).isNone && rp == "Delete"
        | Except.error _ => false) = false := by
      rw [hret]
      simp
    cases hw : st.watchOpened with
    | false =>
      have hpv : pvBranch ctx st file (getName obj) obj =
          ({ st with watchOpened := true, pvWaits := st.pvWaits ++ [getName obj] },
           some (obj.setTop "spec"
             (.obj (deleteKey (deleteKey spec "claimRef") "storageClassName")))) := by
        unfold pvBranch
        simp [hgr, hexe, hprov, hw, hnb, hret]
      have hpvc : pvcBranch ctx
          { st with watchOpened := true, pvWaits := st.pvWaits ++ [getName obj] }
          (obj.setTop "spec"
            (.obj (deleteKey (deleteKey spec "claimRef") "storageClassName"))) =
          ({ st with watchOpened := true, pvWaits := st.pvWaits ++ [getName obj] },
           some (obj.setTop "spec"
             (.obj (deleteKey (deleteKey spec "claimRef") "storageClassName")))) := by
        unfold pvcBranch
        rw [hgr]
        simp [grPersistentVolumes, grPersistentVolumeClaims]
      unfold restoreItem
      simp only [hsel, hcomp, hmir, hpv, hpvc, restoreItemTail, hacts, runActions, hreset, hns]
      have := createPhase_fresh ctx
        { st with watchOpened := true, pvWaits := st.pvWaits ++ [getName obj] }
        (getName obj) (addRestoreLabels objR ctx.restoreName ctx.backupName)
        (by simpa using hfresh)
      simp only [hns] at this ⊢
      simpa using this
    | true =>
      have hpv : pvBranch ctx st file (getName obj) obj =
          (st, some (obj.setTop "spec"
             (.obj (deleteKey (deleteKey spec "claimRef") "storageClassName")))) := by
        unfold pvBranch
        simp [hgr, hexe, hprov, hw, hnb, hret]
      have hpvc : pvcBranch ctx st
          (obj.setTop "spec"
            (.obj (deleteKey (deleteKey spec "claimRef") "storageClassName"))) =
          (st, some (obj.setTop "spec"
             (.obj (deleteKey (deleteKey spec "claimRef") "storageClassName")))) := by
        unfold pvcBranch
        rw [hgr]
        simp [grPersistentVolumes, grPersistentVolumeClaims]
      unfold restoreItem
      simp only [hsel, hcomp, hmir, hpv, hpvc, restoreItemTail, hacts, runActions, hreset, hns]
      have := createPhase_fresh ctx st
        (getName obj) (addRestoreLabels objR ctx.restoreName ctx.backupName) hfresh
      simp only [hns] at this ⊢
      simpa using this
  · intro st' f o
    rcases restoreItem_pvs_shape ctx st' f o with h | ⟨_, hcr, _⟩
    · exact Or.inl h
    · exact Or.inr hcr

/-- Spec fields of the witness Retain PV. -/
def pvSpecFields : List (String × Json) :=
  [("capacity", .obj [("storage", .str "1Gi")]),
   ("claimRef", .obj [("name", .str "c1")]),
   ("storageClassName", .str "gp2"),
   ("persistentVolumeReclaimPolicy", .str "Retain")]

/-- A Retain PV with no snapshot record, carrying a claimRef and a
storage class. -/
def pvRetainObj : Json :=
  .obj [("apiVersion", .str "v1"), ("kind", .str "PersistentVolume"),
        ("metadata", .obj [("name", .str "pv-1")]), ("spec", .obj pvSpecFields)]

/-- A Delete PV with no snapshot record. -/
def pvDeleteObj : Json :=
  .obj [("apiVersion", .str "v1"), ("kind", .str "PersistentVolume"),
        ("metadata", .obj [("name", .str "pv-2")]),
        ("spec", .obj [("persistentVolumeReclaimPolicy", .str "Delete")])]

/-- Item context for PV restores with no snapshots configured. -/
def ctxPV : ItemCtx := mkCtx (.requirements []) grPersistentVolumes ""

/-- The witness Retain PV after the PV restorer strips claimRef and
storageClassName. -/
def pvStrippedEx : Json :=
  Json.setTop pvRetainObj "spec"
    (.obj (deleteKey (deleteKey pvSpecFields "claimRef") "storageClassName"))

/-- Witness for C2: the Delete PV is only provisioned, the Retain PV is
created (stripped and labelled) with no error. -/
theorem c2_pv_handling_witness :
    restoreItem ctxPV st0 "pv-2.json" pvDeleteObj
        = { st0 with pvsToProvision := insertString st0.pvsToProvision (getName pvDeleteObj) } ∧
    (restoreItem ctxPV st0 "pv-1.json" pvRetainObj).creates
        = st0.creates ++ [(getName pvRetainObj,
            addRestoreLabels pvStrippedEx ctxPV.restoreName ctxPV.backupName)] ∧
    (restoreItem ctxPV st0 "pv-1.json" pvRetainObj).errs = st0.errs :=
  ⟨(c2_pv_handling ctxPV st0 "pv-2.json" pvDeleteObj [] (.obj []) rfl rfl rfl).1 rfl,
   ((c2_pv_handling ctxPV st0 "pv-1.json" pvRetainObj pvSpecFields pvStrippedEx rfl rfl rfl).2.1
      rfl (by decide) rfl rfl rfl rfl rfl rfl).1,
   ((c2_pv_handling ctxPV st0 "pv-1.json" pvRetainObj pvSpecFields pvStrippedEx rfl rfl rfl).2.1
      rfl (by decide) rfl rfl rfl rfl rfl rfl).2.1⟩

/-- Counterexample to C2 as frozen: the Retain PV is created, but not
unchanged — the created object has lost `spec.claimRef` (and its
storage class), which the archived object carries. -/
theorem c2_retain_created_changed :
    ((restoreItem ctxPV st0 "pv-1.json" pvRetainObj).creates.map Prod.fst = ["pv-1"]) ∧
    ((restoreItem ctxPV st0 "pv-1.json" pvRetainObj).creates.map
        (fun kv => (getAtPath kv.2 ["spec", "claimRef"]).isOk) = [false]) ∧
    (getAtPath pvRetainObj ["spec", "claimRef"]).isOk = true := by
  decide

/-! ### C8 — PV readiness watch and wait -/

/-- A successful wait returns an object with the requested name that
satisfies the readiness predicate. -/
theorem waitForReady_some (events : List WEvent) (nm : String) (ready : Json → Bool)
    (o : Json) (h : waitForReady events nm ready = some o) :
    getName o = nm ∧ ready o = true := by
  induction events with
  | nil => simp [waitForReady] at h
  | cons e rest ih =>
    unfold waitForReady at h
    repeat' split at h
    all_goals first
      | exact ih h
      | (obtain rfl := Option.some.inj h
         rename_i h1 h2
         exact ⟨by simpa using h1, by simpa using h2⟩)

/-- C8 (amended): when a PV item reaches the PV restorer (it is not
placed in the provisioning set), a watch is opened on the first such
item of the resource type and a single readiness-wait task is spawned
for that first PV only: with the watch already open, later restored PVs
add no task.  The wait resolves on the first watch event whose object
has the PV name and whose `status.phase` is `Available`; exhausting the
events delivered within the timeout yields a system-scoped warning and
never an error. -/
theorem c8_pv_watch_and_wait (ctx : ItemCtx) (st : RState) (file name : String) (obj : Json)
    (st1 : RState) (o1 : Json)
    (hgr : ctx.groupResource = grPersistentVolumes)
    (h : pvBranch ctx st file name obj = (st1, some o1)) :
    (st.watchOpened = false → st1.watchOpened = true ∧ st1.pvWaits = st.pvWaits ++ [name])
  ∧ (st.watchOpened = true → st1.watchOpened = true ∧ st1.pvWaits = st.pvWaits)
  ∧ (∀ (events : List WEvent) (nm : String) (w : RestoreResult),
      (waitForReady events nm isPVReady = none →
        pvWaitTask events nm w = addArkError w
          ("timeout reached waiting for persistent volume " ++ nm ++ " to become ready"))
      ∧ (∀ o, waitForReady events nm isPVReady = some o →
          pvWaitTask events nm w = w ∧ getName o = nm ∧ isPVReady o = true))
  ∧ (∀ o : Json, isPVReady o = true ↔ getString o ["status", "phase"] = .ok "Available") := by
  have hch : st1 = (if st.watchOpened then st
      else { st with watchOpened := true, pvWaits := st.pvWaits ++ [name] }) := by
    unfold pvBranch at h
    dsimp only at h
    repeat' split at h
    all_goals injection h with h1 h2
    all_goals first
      | exact Option.noConfusion h2
      | exact absurd hgr (by assumption)
      | (rw [← h1]; simp_all)
  refine ⟨?_, ?_, ?_, ?_⟩
  · intro hw
    rw [hch]
    simp [hw]
  · intro hw
    rw [hch]
    simp [hw]
  · intro events nm w
    constructor
    · intro hto
      simp [pvWaitTask, hto]
    · intro o ho
      have hprops := waitForReady_some events nm isPVReady o ho
      exact ⟨by simp [pvWaitTask, ho], hprops.1, hprops.2⟩
  · intro o
    unfold isPVReady
    cases hg : getString o ["status", "phase"] with
    | ok phase =>
      constructor
      · intro h'
        simp at h'
        rw [h']
      · intro h'
        obtain rfl := Except.ok.inj h'
        simp
    | error e =>
      constructor
      · intro h'
        simp at h'
      · intro h'
        exact Except.noConfusion h'

/-- State after the first restored PV of the witness run. -/
def stWEx : RState := { st0 with watchOpened := true, pvWaits := ["pv-1"] }

/-- A watch event whose PV is still pending. -/
def pvPendingEv : Json :=
  .obj [("metadata", .obj [("name", .str "pv-1")]),
        ("status", .obj [("phase", .str "Pending")])]

/-- Witness for C8: the first restored PV opens the watch and spawns
the wait task; a trace that never turns Available yields the timeout
warning. -/
theorem c8_pv_watch_and_wait_witness :
    (stWEx.watchOpened = true ∧ stWEx.pvWaits = st0.pvWaits ++ ["pv-1"]) ∧
    pvWaitTask [⟨WEventType.added, some pvPendingEv⟩] "pv-1" emptyResult
      = addArkError emptyResult
          "timeout reached waiting for persistent volume pv-1 to become ready" :=
  ⟨(c8_pv_watch_and_wait ctxPV st0 "pv-1.json" "pv-1" pvRetainObj stWEx pvStrippedEx
      rfl rfl).1 rfl,
   ((c8_pv_watch_and_wait ctxPV st0 "pv-1.json" "pv-1" pvRetainObj stWEx pvStrippedEx
      rfl rfl).2.2.1 [⟨WEventType.added, some pvPendingEv⟩] "pv-1" emptyResult).1 rfl⟩

/-- A second Retain PV with no snapshot record. -/
def pvRetain2Obj : Json :=
  .obj [("apiVersion", .str "v1"), ("kind", .str "PersistentVolume"),
        ("metadata", .obj [("name", .str "pv-3")]),
        ("spec", .obj [("persistentVolumeReclaimPolicy", .str "Retain")])]

/-- Counterexample to C8 as frozen: two PVs are restored (both created)
but only the first gets a readiness-wait task — the claim's "per PV a
task is spawned" fails for the second PV. -/
theorem c8_only_first_pv_gets_wait_task :
    (restoreItem ctxPV (restoreItem ctxPV st0 "pv-1.json" pvRetainObj)
        "pv-3.json" pvRetain2Obj).pvWaits = ["pv-1"] ∧
    (restoreItem ctxPV (restoreItem ctxPV st0 "pv-1.json" pvRetainObj)
        "pv-3.json" pvRetain2Obj).creates.map Prod.fst = ["pv-1", "pv-3"] := by
  decide

/-! ### C1 — already-exists conflict resolution -/

/-- Membership in the guarded append. -/
theorem mem_addUnique (acc : List Json) (x y : Json) :
    y ∈ addUnique acc x ↔ y ∈ acc ∨ y = x := by
  unfold addUnique
  by_cases hc : x ∈ acc
  · rw [if_pos (by simpa using hc)]
    constructor
    · exact Or.inl
    · rintro (h | rfl)
      · exact h
      · exact hc
  · simp [hc]

/-- Membership in the de-duplicated union. -/
theorem mem_dedupUnion (b l : List Json) (x : Json) :
    x ∈ dedupUnion l b ↔ x ∈ l ∨ x ∈ b := by
  induction b generalizing l with
  | nil => simp [dedupUnion]
  | cons y ys ih =>
    show x ∈ dedupUnion (addUnique l y) ys ↔ _
    rw [ih, mem_addUnique]
    constructor
    · rintro ((h | rfl) | h)
      · exact Or.inl h
      · exact Or.inr (List.mem_cons_self _ _)
      · exact Or.inr (List.mem_cons_of_mem _ h)
    · rintro (h | h)
      · exact Or.inl (Or.inl h)
      · rcases List.mem_cons.mp h with rfl | h'
        · exact Or.inl (Or.inr rfl)
        · exact Or.inr h'

/-- The guarded append keeps the list duplicate-free. -/
theorem nodup_addUnique (acc : List Json) (x : Json) (h : acc.Nodup) :
    (addUnique acc x).Nodup := by
  unfold addUnique
  by_cases hc : x ∈ acc
  · simpa [hc] using h
  · simp [hc, h, List.nodup_append]

/-- The de-duplicated union of a duplicate-free live list is
duplicate-free. -/
theorem nodup_dedupUnion (b l : List Json) (h : l.Nodup) :
    (dedupUnion l b).Nodup := by
  induction b generalizing l with
  | nil => exact h
  | cons y ys ih => exact ih (addUnique l y) (nodup_addUnique l y h)

/-- The guarded append preserves the existing entries in place. -/
theorem prefix_addUnique (acc : List Json) (x : Json) : acc <+: addUnique acc x := by
  unfold addUnique
  split
  · exact List.prefix_refl acc
  · exact ⟨[x], rfl⟩

/-- The de-duplicated union preserves the live entries in place. -/
theorem prefix_dedupUnion (b l : List Json) : l <+: dedupUnion l b := by
  induction b generalizing l with
  | nil => exact List.prefix_refl l
  | cons y ys ih => exact (prefix_addUnique l y).trans (ih (addUnique l y))

/-- The merged ServiceAccount carries the de-duplicated unions in its
`secrets` and `imagePullSecrets` fields. -/
theorem mergeServiceAccounts_fields (fs : List (String × Json)) (b : Json) :
    getArrTop (mergeServiceAccounts (.obj fs) b) "secrets"
        = dedupUnion (getArrTop (.obj fs) "secrets") (getArrTop b "secrets") ∧
    getArrTop (mergeServiceAccounts (.obj fs) b) "imagePullSecrets"
        = dedupUnion (getArrTop (.obj fs) "imagePullSecrets") (getArrTop b "imagePullSecrets") := by
  constructor
  · simp [mergeServiceAccounts, getArrTop, Json.setTop,
      lookup_setKey_ne _ "imagePullSecrets" "secrets" _ (by decide), lookup_setKey_self]
  · simp [mergeServiceAccounts, getArrTop, Json.setTop, lookup_setKey_self]

/-- C1: on an already-exists conflict the engine fetches the live
object, strips it with `resetMetadataAndStatus`, copies the
identification labels from the attempted object, and deep-compares.
Identical: nothing happens — no warning, no error, no creation, no
patch.  Different and ServiceAccounts: a merge patch is applied whose
`secrets` and `imagePullSecrets` are the de-duplicated unions of live
and backed-up entries, preserving the live entries; no warning or
error.  Different and any other type: a warning is recorded and no
mutation is applied. -/
theorem c1_conflict_resolution (ctx : ItemCtx) (st : RState) (file : String)
    (obj objR objF stored fc0 fromCluster : Json)
    (hsel : ctx.selector.matches (getLabels obj) = true)
    (hcomp : isCompleted obj ctx.groupResource = .ok false)
    (hmir : ¬ (ctx.groupResource = grPods
        ∧ ((getAnnotations obj).lookup mirrorPodAnnotationKey).getD "" ≠ ""))
    (hgrpv : ctx.groupResource ≠ grPersistentVolumes)
    (hgrpvc : ctx.groupResource ≠ grPersistentVolumeClaims)
    (hacts : ctx.actions = [])
    (hreset : resetMetadataAndStatus obj = .ok objR)
    (hobjF : objF = addRestoreLabels
      (if ctx.ns ≠ "" then setNamespaceField objR ctx.ns else objR)
      ctx.restoreName ctx.backupName)
    (hlive : lookupKey st.cluster (getName obj) = some stored)
    (hfc : resetMetadataAndStatus stored = .ok fc0)
    (hfcl : fromCluster = addRestoreLabels fc0
      ((lookupKey (getLabels objF) restoreNameLabel).getD "")
      ((lookupKey (getLabels objF) backupNameLabel).getD "")) :
    (fromCluster.deepEqual objF = true → restoreItem ctx st file obj = st)
  ∧ (fromCluster.deepEqual objF = false → ctx.groupResource = grServiceAccounts →
      (generatePatch fromCluster (mergeServiceAccounts fromCluster objF) = none →
        restoreItem ctx st file obj = st)
      ∧ (∀ patch, generatePatch fromCluster (mergeServiceAccounts fromCluster objF) = some patch →
        restoreItem ctx st file obj =
          { st with
              cluster := setKey st.cluster (getName obj) (applyMergePatch stored patch),
              patches := st.patches ++ [(getName obj, patch)] }))
  ∧ (fromCluster.deepEqual objF = false → ctx.groupResource ≠ grServiceAccounts →
      restoreItem ctx st file obj =
        { st with warnings := (addToResult st.warnings ctx.ns
            "not restored: already exists and is different from backed up version.") })
  ∧ (∀ (fs : List (String × Json)) (b : Json) (x : Json),
      (x ∈ getArrTop (mergeServiceAccounts (.obj fs) b) "secrets" ↔
        x ∈ getArrTop (.obj fs) "secrets" ∨ x ∈ getArrTop b "secrets")
      ∧ ((getArrTop (.obj fs) "secrets").Nodup →
          (getArrTop (mergeServiceAccounts (.obj fs) b) "secrets").Nodup)
      ∧ getArrTop (.obj fs) "secrets" <+: getArrTop (mergeServiceAccounts (.obj fs) b) "secrets") := by
  have hpv : pvBranch ctx st file (getName obj) obj = (st, some obj) := by
    unfold pvBranch
    simp [hgrpv]
  have hpvc : pvcBranch ctx st obj = (st, some obj) := by
    unfold pvcBranch
    simp [hgrpvc]
  have hmain : restoreItem ctx st file obj = handleAlreadyExists ctx st (getName obj) objF := by
    unfold restoreItem
    simp only [hsel, hcomp, hmir, hpv, hpvc, restoreItemTail, hacts, runActions, hreset]
    unfold createPhase
    simp only [hlive, Option.isSome_some, if_pos, hobjF]
    simp
  refine ⟨?_, ?_, ?_, ?_⟩
  · intro hde
    rw [hmain]
    unfold handleAlreadyExists
    simp only [hlive, hfc, ← hfcl, hde]
    simp
  · intro hde hsa
    constructor
    · intro hpatch
      rw [hmain]
      unfold handleAlreadyExists
      simp only [hlive, hfc, ← hfcl, hde, hsa, hpatch]
      simp
    · intro patch hpatch
      rw [hmain]
      unfold handleAlreadyExists
      simp only [hlive, hfc, ← hfcl, hde, hsa, hpatch]
      simp
  · intro hde hsa
    rw [hmain]
    unfold handleAlreadyExists
    simp only [hlive, hfc, ← hfcl, hde, hsa]
    simp [hsa]
  · intro fs b x
    refine ⟨?_, ?_, ?_⟩
    · rw [(mergeServiceAccounts_fields fs b).1]
      exact mem_dedupUnion _ _ x
    · intro h
      rw [(mergeServiceAccounts_fields fs b).1]
      exact nodup_dedupUnion _ _ h
    · rw [(mergeServiceAccounts_fields fs b).1]
      exact prefix_dedupUnion _ _

/-- Deep equality is reflexive. -/
theorem deepEqual_refl (a : Json) : a.deepEqual a = true := by
  simp [Json.deepEqual]

/-- Item context for the conflict witness: config maps into `ns-1`. -/
def ctxCM : ItemCtx := mkCtx (.requirements []) ⟨"", "configmaps"⟩ "ns-1"

/-- The witness config map as the engine attempts to create it. -/
def cmObjF : Json := addRestoreLabels (setNamespaceField cmObj "ns-1") "restore-1" "backup-1"

/-- A cluster already holding exactly that object. -/
def stCM : RState := { st0 with cluster := [("cm1", cmObjF)] }

/-- A secret reference for the union witness. -/
def secretA : Json := .obj [("name", .str "token-a")]

/-- Another secret reference for the union witness. -/
def secretB : Json := .obj [("name", .str "token-b")]

/-- Witness for C1: re-creating an object identical to the live one is
a strict no-op, and the ServiceAccount merge union behaves as claimed
on concrete secrets. -/
theorem c1_conflict_resolution_witness :
    restoreItem ctxCM stCM "cm1.json" cmObj = stCM ∧
    (secretB ∈ getArrTop (mergeServiceAccounts (.obj [("secrets", .arr [secretA])])
        (.obj [("secrets", .arr [secretA, secretB])])) "secrets" ↔
      secretB ∈ getArrTop (Json.obj [("secrets", .arr [secretA])]) "secrets" ∨
      secretB ∈ getArrTop (Json.obj [("secrets", .arr [secretA, secretB])]) "secrets") :=
  ⟨(c1_conflict_resolution ctxCM stCM "cm1.json" cmObj cmObj cmObjF cmObjF cmObjF cmObjF
      rfl rfl (by decide) (by decide) (by decide) rfl rfl rfl rfl rfl rfl).1
      (deepEqual_refl cmObjF),
   ((c1_conflict_resolution ctxCM stCM "cm1.json" cmObj cmObj cmObjF cmObjF cmObjF cmObjF
      rfl rfl (by decide) (by decide) (by decide) rfl rfl rfl rfl rfl rfl).2.2.2
      [("secrets", .arr [secretA])] (.obj [("secrets", .arr [secretA, secretB])]) secretB).1⟩

/-! ### C9 — idempotence of the second pass -/

/-- Total number of messages in a result. -/
def msgCount (r : RestoreResult) : Nat :=
  r.ark.length + r.cluster.length + (r.namespaces.map (fun kv => kv.2.length)).sum

/-- Appending to a namespace entry grows the message count by one. -/
theorem sum_appendNsMsg (l : List (String × List String)) (ns e : String) :
    ((appendNsMsg l ns e).map (fun kv => kv.2.length)).sum
      = (l.map (fun kv => kv.2.length)).sum + 1 := by
  induction l with
  | nil => simp [appendNsMsg]
  | cons x xs ih =>
    by_cases h : x.1 = ns
    · simp [appendNsMsg, h]
      omega
    · simp [appendNsMsg, h, ih]
      omega

/-- Recording one message grows the message count by one. -/
theorem msgCount_addToResult (r : RestoreResult) (ns e : String) :
    msgCount (addToResult r ns e) = msgCount r + 1 := by
  unfold addToResult msgCount
  by_cases h : ns = ""
  · simp [h]
    omega
  · simp [h, sum_appendNsMsg]
    omega

/-- Recording a batch of messages grows the count by the batch size. -/
theorem msgCount_foldl (de : List String) (r : RestoreResult) (ns : String) :
    msgCount (de.foldl (fun acc m => addToResult acc ns m) r) = msgCount r + de.length := by
  induction de generalizing r with
  | nil => simp
  | cons m ms ih => simp [ih, msgCount_addToResult]; omega

/-- A batch of recorded messages that changes nothing must be empty. -/
theorem foldl_addToResult_eq (de : List String) (r : RestoreResult) (ns : String)
    (h : de.foldl (fun acc m => addToResult acc ns m) r = r) : de = [] := by
  have := msgCount_foldl de r ns
  rw [h] at this
  have hlen : de.length = 0 := by omega
  exact List.eq_nil_of_length_eq_zero hlen

/-- The create step records no error and never panics. -/
theorem createPhase_errs (ctx : ItemCtx) (st' : RState) (name : String) (o : Json) :
    (createPhase ctx st' name o).errs = st'.errs ∧
    (createPhase ctx st' name o).panicked = st'.panicked := by
  unfold createPhase
  cases hx : (lookupKey st'.cluster name).isSome with
  | true =>
    simp only [hx, if_pos]
    exact ⟨(handleAlreadyExists_preserves ctx st' name o).2.1,
      (handleAlreadyExists_preserves ctx st' name o).2.2.1⟩
  | false =>
    simp only [hx]
    rw [if_neg (by simp)]
    split <;> exact ⟨rfl, rfl⟩

/-- The action loop is determined by the item and the actions alone:
for fixed item it produces a fixed outcome, fixed batches of warnings
and errors appended to whatever accumulators it is started with, and a
fixed panic flag; a surviving item means no error and no panic. -/
theorem runActions_delta (ns file res : String) (acts : List ResolvedActionM) (obj : Json) :
    ∃ (o : Option Json) (dw de : List String) (p : Bool),
      (∀ w e, runActions ns file res w e obj acts =
        ⟨o, dw.foldl (fun r m => addToResult r ns m) w,
            de.foldl (fun r m => addToResult r ns m) e, p⟩) ∧
      (o.isSome → de = [] ∧ p = false) := by
  induction acts generalizing obj with
  | nil =>
    exact ⟨some obj, [], [], false, fun w e => rfl, fun _ => ⟨rfl, rfl⟩⟩
  | cons a rest ih =>
    by_cases hm : a.selector.matches (getLabels obj) = true
    · rcases hax : a.execute obj with ⟨upd, warn, err⟩
      cases warn with
      | some wv =>
        cases err with
        | none =>
          refine ⟨none, [], [], true, fun w e => ?_, by simp⟩
          unfold runActions
          simp [hm, hax, wrapf]
        | some ev =>
          refine ⟨none,
            ["warning preparing item " ++ file ++ " for resource " ++ res ++ " in namespace " ++ ns ++ ": " ++ ev],
            ["error preparing item " ++ file ++ " for resource " ++ res ++ " in namespace " ++ ns ++ ": " ++ ev],
            false, fun w e => ?_, by simp⟩
          unfold runActions
          simp [hm, hax, wrapf]
      | none =>
        cases err with
        | some ev =>
          refine ⟨none, [],
            ["error preparing item " ++ file ++ " for resource " ++ res ++ " in namespace " ++ ns ++ ": " ++ ev],
            false, fun w e => ?_, by simp⟩
          unfold runActions
          simp [hm, hax, wrapf]
        | none =>
          cases upd with
          | none =>
            refine ⟨none, [], ["unexpected type for item " ++ file], false, fun w e => ?_, by simp⟩
            unfold runActions
            simp [hm, hax, wrapf]
          | some u =>
            obtain ⟨o, dw, de, p, hrec, hs⟩ := ih u
            refine ⟨o, dw, de, p, fun w e => ?_, hs⟩
            unfold runActions
            simp only [hm, hax, wrapf]
            simp
            exact hrec w e
    · obtain ⟨o, dw, de, p, hrec, hs⟩ := ih obj
      refine ⟨o, dw, de, p, fun w e => ?_, hs⟩
      unfold runActions
      simp only [hm]
      simp
      exact hrec w e

/-- The pipeline tail appends fixed error batches and a fixed panic
flag, determined by the item and context alone. -/
theorem restoreItemTail_delta (ctx : ItemCtx) (file name : String) (obj2 : Json) :
    ∃ (de : List String) (p : Bool),
      ∀ st2 : RState,
        (restoreItemTail ctx st2 file name obj2).errs
            = de.foldl (fun r m => addToResult r ctx.ns m) st2.errs ∧
        (restoreItemTail ctx st2 file name obj2).panicked = (st2.panicked || p) := by
  obtain ⟨o, dw, deA, pA, hrun, hs⟩ :=
    runActions_delta ctx.ns file ctx.groupResource.canonical ctx.actions obj2
  cases o with
  | none =>
    refine ⟨deA, pA, fun st2 => ?_⟩
    unfold restoreItemTail
    rw [hrun st2.warnings st2.errs]
    exact ⟨rfl, by simp⟩
  | some obj3 =>
    obtain ⟨hde0, hp0⟩ := hs rfl
    subst hde0 hp0
    cases hres : resetMetadataAndStatus obj3 with
    | error er =>
      refine ⟨[er], false, fun st2 => ?_⟩
      unfold restoreItemTail
      rw [hrun st2.warnings st2.errs]
      simp only [hres]
      exact ⟨rfl, by simp⟩
    | ok obj4 =>
      refine ⟨[], false, fun st2 => ?_⟩
      unfold restoreItemTail
      rw [hrun st2.warnings st2.errs]
      simp only [hres]
      constructor
      · exact (createPhase_errs ctx _ name _).1
      · rw [(createPhase_errs ctx _ name _).2]
        simp

/-- One `restoreItem` call appends a fixed batch of errors and a fixed
panic flag to whatever it starts from; the batch depends only on the
context, the item, and (for PersistentVolumeClaims) the provisioning
set. -/
theorem restoreItem_delta (ctx : ItemCtx) (file : String) (obj : Json) (pvs : List String) :
    ∃ (de : List String) (p : Bool),
      ∀ st : RState, (st.pvsToProvision = pvs ∨ ctx.groupResource ≠ grPersistentVolumeClaims) →
        (restoreItem ctx st file obj).errs = de.foldl (fun r m => addToResult r ctx.ns m) st.errs ∧
        (restoreItem ctx st file obj).panicked = (st.panicked || p) := by
  cases hsel : ctx.selector.matches (getLabels obj) with
  | false =>
    refine ⟨[], false, fun st _ => ?_⟩
    unfold restoreItem
    simp [hsel]
  | true =>
    cases hcomp : isCompleted obj ctx.groupResource with
    | error e =>
      refine ⟨["error checking completion for item " ++ file ++ ": " ++ e], false, fun st _ => ?_⟩
      unfold restoreItem
      simp [hsel, hcomp]
    | ok b =>
      cases b with
      | true =>
        refine ⟨[], false, fun st _ => ?_⟩
        unfold restoreItem
        simp [hsel, hcomp]
      | false =>
        by_cases hmir : ctx.groupResource = grPods
            ∧ ((getAnnotations obj).lookup mirrorPodAnnotationKey).getD "" ≠ ""
        · obtain ⟨hpods, hann⟩ := hmir
          have hcomp2 : isCompleted obj grPods = .ok false := by
            rw [← hpods]
            exact hcomp
          refine ⟨[], false, fun st _ => ?_⟩
          unfold restoreItem
          simp [hsel, hcomp, hcomp2, hpods, hann]
        · by_cases hgrpv : ctx.groupResource = grPersistentVolumes
          · cases hprov : (match getString obj ["spec", "persistentVolumeReclaimPolicy"] with
              | Except.ok rp => !(lookupKey ctx.volumeBackups (getName obj)).isSome && rp == "Delete"
              | Except.error _ => false) with
            | true =>
              refine ⟨[], false, fun st _ => ?_⟩
              have hpv : pvBranch ctx st file (getName obj) obj =
                  ({ st with pvsToProvision := insertString st.pvsToProvision (getName obj) }, none) := by
                unfold pvBranch
                simp only [hgrpv, hprov]
                simp
              unfold restoreItem
              simp only [hsel, hcomp, hmir, hpv]
              simp
            | false =>
              cases hexe : executePVAction ctx.pvRestorer obj with
              | error e =>
                refine ⟨["error executing PVAction for item " ++ file ++ ": " ++ e], false,
                  fun st _ => ?_⟩
                have hpv : pvBranch ctx st file (getName obj) obj =
                    ({ st with errs := (addToResult st.errs ctx.ns
                        ("error executing PVAction for item " ++ file ++ ": " ++ e)) }, none) := by
                  unfold pvBranch
                  simp only [hgrpv, hprov, hexe]
                  simp
                unfold restoreItem
                simp only [hsel, hcomp, hmir, hpv]
                simp
              | ok u =>
                obtain ⟨de, p, htail⟩ := restoreItemTail_delta ctx file (getName obj) u
                refine ⟨de, p, fun st _ => ?_⟩
                have hnotpvc : ctx.groupResource ≠ grPersistentVolumeClaims := by
                  rw [hgrpv]
                  decide
                cases hw : st.watchOpened with
                | false =>
                  have hpv : pvBranch ctx st file (getName obj) obj =
                      ({ st with watchOpened := true, pvWaits := st.pvWaits ++ [getName obj] },
                       some u) := by
                    unfold pvBranch
                    simp only [hgrpv, hprov, hexe, hw]
                    simp
                  have hpvc : pvcBranch ctx
                      { st with watchOpened := true, pvWaits := st.pvWaits ++ [getName obj] } u =
                      ({ st with watchOpened := true, pvWaits := st.pvWaits ++ [getName obj] },
                       some u) := by
                    unfold pvcBranch
                    simp [hnotpvc]
                  unfold restoreItem
                  simp only [hsel, hcomp, hmir, hpv, hpvc]
                  exact htail _
                | true =>
                  have hpv : pvBranch ctx st file (getName obj) obj = (st, some u) := by
                    unfold pvBranch
                    simp only [hgrpv, hprov, hexe, hw]
                    simp
                  have hpvc : pvcBranch ctx st u = (st, some u) := by
                    unfold pvcBranch
                    simp [hnotpvc]
                  unfold restoreItem
                  simp only [hsel, hcomp, hmir, hpv, hpvc]
                  exact htail _
          · by_cases hgrpvc : ctx.groupResource = grPersistentVolumeClaims
            · cases hgm : getMap obj ["spec"] with
              | error e =>
                refine ⟨[e], false, fun st _ => ?_⟩
                have hpv : pvBranch ctx st file (getName obj) obj = (st, some obj) := by
                  unfold pvBranch
                  simp [hgrpv]
                have hpvc : pvcBranch ctx st obj =
                    ({ st with errs := addToResult st.errs ctx.ns e }, none) := by
                  unfold pvcBranch
                  simp [hgrpvc, hgm]
                unfold restoreItem
                simp only [hsel, hcomp, hmir, hpv, hpvc]
                simp
              | ok spec =>
                cases hvn : lookupKey spec "volumeName" with
                | none =>
                  obtain ⟨de, p, htail⟩ := restoreItemTail_delta ctx file (getName obj) obj
                  refine ⟨de, p, fun st _ => ?_⟩
                  have hpv : pvBranch ctx st file (getName obj) obj = (st, some obj) := by
                    unfold pvBranch
                    simp [hgrpv]
                  have hpvc : pvcBranch ctx st obj = (st, some obj) := by
                    unfold pvcBranch
                    simp [hgrpvc, hgm, hvn]
                  unfold restoreItem
                  simp only [hsel, hcomp, hmir, hpv, hpvc]
                  exact htail _
                | some v =>
                  cases v with
                  | str vs =>
                    by_cases hcv : pvs.contains vs = true
                    · obtain ⟨de, p, htail⟩ := restoreItemTail_delta ctx file (getName obj)
                        (setAnnotations (obj.setTop "spec" (.obj (deleteKey spec "volumeName")))
                          ((getAnnotations (obj.setTop "spec" (.obj (deleteKey spec "volumeName")))).filter
                            (fun kv => kv.1 ≠ "pv.kubernetes.io/bind-completed"
                              ∧ kv.1 ≠ "pv.kubernetes.io/bound-by-controller")))
                      refine ⟨de, p, fun st hst => ?_⟩
                      rcases hst with hst | hne
                      · have hpv : pvBranch ctx st file (getName obj) obj = (st, some obj) := by
                          unfold pvBranch
                          simp [hgrpv]
                        have hcv' : st.pvsToProvision.contains vs = true := by rw [hst]; exact hcv
                        have hpvc : pvcBranch ctx st obj =
                            (st, some (setAnnotations
                              (obj.setTop "spec" (.obj (deleteKey spec "volumeName")))
                              ((getAnnotations (obj.setTop "spec" (.obj (deleteKey spec "volumeName")))).filter
                                (fun kv => kv.1 ≠ "pv.kubernetes.io/bind-completed"
                                  ∧ kv.1 ≠ "pv.kubernetes.io/bound-by-controller")))) := by
                          unfold pvcBranch
                          simp [hgrpvc, hgm, hvn, hcv']
                          intro hmem
                          exact absurd (by simpa using hcv') hmem
                        unfold restoreItem
                        simp only [hsel, hcomp, hmir, hpv, hpvc]
                        exact htail _
                      · exact absurd hgrpvc hne
                    · obtain ⟨de, p, htail⟩ := restoreItemTail_delta ctx file (getName obj) obj
                      refine ⟨de, p, fun st hst => ?_⟩
                      rcases hst with hst | hne
                      · have hpv : pvBranch ctx st file (getName obj) obj = (st, some obj) := by
                          unfold pvBranch
                          simp [hgrpv]
                        have hcv' : st.pvsToProvision.contains vs = false := by
                          rw [hst]
                          exact Bool.not_eq_true _ ▸ (by simpa using hcv)
                        have hpvc : pvcBranch ctx st obj = (st, some obj) := by
                          unfold pvcBranch
                          simp [hgrpvc, hgm, hvn, hcv']
                          intro hmem
                          exact absurd hmem (by simpa using hcv')
                        unfold restoreItem
                        simp only [hsel, hcomp, hmir, hpv, hpvc]
                        exact htail _
                      · exact absurd hgrpvc hne
                  | null =>
                    refine ⟨[], true, fun st _ => ?_⟩
                    have hpv : pvBranch ctx st file (getName obj) obj = (st, some obj) := by
                      unfold pvBranch
                      simp [hgrpv]
                    have hpvc : pvcBranch ctx st obj = ({ st with panicked := true }, none) := by
                      unfold pvcBranch
                      simp [hgrpvc, hgm, hvn]
                    unfold restoreItem
                    simp only [hsel, hcomp, hmir, hpv, hpvc]
                    simp
                  | bool bb =>
                    refine ⟨[], true, fun st _ => ?_⟩
                    have hpv : pvBranch ctx st file (getName obj) obj = (st, some obj) := by
                      unfold pvBranch
                      simp [hgrpv]
                    have hpvc : pvcBranch ctx st obj = ({ st with panicked := true }, none) := by
                      unfold pvcBranch
                      simp [hgrpvc, hgm, hvn]
                    unfold restoreItem
                    simp only [hsel, hcomp, hmir, hpv, hpvc]
                    simp
                  | num nn =>
                    refine ⟨[], true, fun st _ => ?_⟩
                    have hpv : pvBranch ctx st file (getName obj) obj = (st, some obj) := by
                      unfold pvBranch
                      simp [hgrpv]
                    have hpvc : pvcBranch ctx st obj = ({ st with panicked := true }, none) := by
                      unfold pvcBranch
                      simp [hgrpvc, hgm, hvn]
                    unfold restoreItem
                    simp only [hsel, hcomp, hmir, hpv, hpvc]
                    simp
                  | arr aa =>
                    refine ⟨[], true, fun st _ => ?_⟩
                    have hpv : pvBranch ctx st file (getName obj) obj = (st, some obj) := by
                      unfold pvBranch
                      simp [hgrpv]
                    have hpvc : pvcBranch ctx st obj = ({ st with panicked := true }, none) := by
                      unfold pvcBranch
                      simp [hgrpvc, hgm, hvn]
                    unfold restoreItem
                    simp only [hsel, hcomp, hmir, hpv, hpvc]
                    simp
                  | obj oo =>
                    refine ⟨[], true, fun st _ => ?_⟩
                    have hpv : pvBranch ctx st file (getName obj) obj = (st, some obj) := by
                      unfold pvBranch
                      simp [hgrpv]
                    have hpvc : pvcBranch ctx st obj = ({ st with panicked := true }, none) := by
                      unfold pvcBranch
                      simp [hgrpvc, hgm, hvn]
                    unfold restoreItem
                    simp only [hsel, hcomp, hmir, hpv, hpvc]
                    simp
            · obtain ⟨de, p, htail⟩ := restoreItemTail_delta ctx file (getName obj) obj
              refine ⟨de, p, fun st _ => ?_⟩
              have hpv : pvBranch ctx st file (getName obj) obj = (st, some obj) := by
                unfold pvBranch
                simp [hgrpv]
              have hpvc : pvcBranch ctx st obj = (st, some obj) := by
                unfold pvcBranch
                simp [hgrpvc]
              unfold restoreItem
              simp only [hsel, hcomp, hmir, hpv, hpvc]
              exact htail _

/-- The provisioning-set component of the PV branch outcome is a
function of the incoming provisioning set alone: the decision to
provision depends only on the context and the item. -/
theorem pvBranch_pvs_fun (ctx : ItemCtx) (file name : String) (obj : Json) :
    ∃ g : List String → List String, ∀ st : RState,
      (pvBranch ctx st file name obj).1.pvsToProvision = g st.pvsToProvision := by
  by_cases hgr : ctx.groupResource = grPersistentVolumes
  · cases hgs : getString obj ["spec", "persistentVolumeReclaimPolicy"] with
    | error e =>
      cases hex : executePVAction ctx.pvRestorer obj with
      | error er =>
        refine ⟨id, fun st => ?_⟩
        unfold pvBranch
        simp [hgr, hgs, hex]
      | ok updated =>
        refine ⟨id, fun st => ?_⟩
        unfold pvBranch
        simp only [hgr, hgs, hex]
        simp
        split <;> rfl
    | ok rp =>
      by_cases hb : lookupKey ctx.volumeBackups name = none ∧ rp = "Delete"
      · refine ⟨fun l => insertString l name, fun st => ?_⟩
        unfold pvBranch
        simp [hgr, hgs, hb]
      · cases hex : executePVAction ctx.pvRestorer obj with
        | error er =>
          refine ⟨id, fun st => ?_⟩
          unfold pvBranch
          simp [hgr, hgs, hb, hex]
        | ok updated =>
          refine ⟨id, fun st => ?_⟩
          unfold pvBranch
          simp only [hgr, hgs, hb, hex]
          simp [hb]
          split <;> rfl
  · exact ⟨id, fun st => by unfold pvBranch; simp [hgr]⟩

/-- The pipeline tail never touches the provisioning set. -/
theorem restoreItemTail_pvs (ctx : ItemCtx) (st2 : RState) (file name : String) (obj2 : Json) :
    (restoreItemTail ctx st2 file name obj2).pvsToProvision = st2.pvsToProvision := by
  unfold restoreItemTail
  rcases hact : runActions ctx.ns file ctx.groupResource.canonical
      st2.warnings st2.errs obj2 ctx.actions with ⟨o3, w, e, p⟩
  cases o3 with
  | none => rfl
  | some obj3 =>
    cases hres : resetMetadataAndStatus obj3 with
    | error er => simp only [hres]
    | ok obj4 => simp only [hres]; exact createPhase_pvs ctx _ name _

/-- The provisioning set produced by one item is a function of the
incoming provisioning set alone: every other state component is
irrelevant to how the set evolves. -/
theorem restoreItem_pvs_fun (ctx : ItemCtx) (file : String) (obj : Json) :
    ∃ g : List String → List String, ∀ st : RState,
      (restoreItem ctx st file obj).pvsToProvision = g st.pvsToProvision := by
  obtain ⟨g, hg⟩ := pvBranch_pvs_fun ctx file (getName obj) obj
  cases hsel : ctx.selector.matches (getLabels obj) with
  | false => exact ⟨id, fun st => by unfold restoreItem; simp [hsel]⟩
  | true =>
    cases hcomp : isCompleted obj ctx.groupResource with
    | error e => exact ⟨id, fun st => by unfold restoreItem; simp [hsel, hcomp]⟩
    | ok b =>
      cases b with
      | true => exact ⟨id, fun st => by unfold restoreItem; simp [hsel, hcomp]⟩
      | false =>
        by_cases hmir : ctx.groupResource = grPods
            ∧ ((getAnnotations obj).lookup mirrorPodAnnotationKey).getD "" ≠ ""
        · refine ⟨id, fun st => ?_⟩
          have hcomp2 : isCompleted obj grPods = .ok false := by
            rw [← hmir.1]; exact hcomp
          unfold restoreItem
          simp [hsel, hcomp, hcomp2, hmir]
        · refine ⟨g, fun st => ?_⟩
          have hg1 := hg st
          rcases hpv : pvBranch ctx st file (getName obj) obj with ⟨st1, o1⟩
          rw [hpv] at hg1
          cases o1 with
          | none =>
            unfold restoreItem
            simp only [hsel, hcomp, hmir, hpv]
            simpa using hg1
          | some obj1 =>
            have h1 : st1.pvsToProvision = st.pvsToProvision :=
              pvBranch_some_pvs ctx st file (getName obj) obj st1 obj1 hpv
            have hgid : g st.pvsToProvision = st.pvsToProvision := by
              rw [← hg1]; simpa using h1
            rcases hpvc : pvcBranch ctx st1 obj1 with ⟨st2, o2⟩
            have h2 : st2.pvsToProvision = st1.pvsToProvision := by
              have := (pvcBranch_preserves ctx st1 obj1).2.2.2
              rw [hpvc] at this
              simpa using this
            cases o2 with
            | none =>
              unfold restoreItem
              simp only [hsel, hcomp, hmir, hpv, hpvc]
              simp [h2, h1, hgid]
            | some obj2 =>
              unfold restoreItem
              simp only [hsel, hcomp, hmir, hpv, hpvc]
              simp [restoreItemTail_pvs, h2, h1, hgid]

/-- The per-file loop of `restoreResource` over the decoded items of
one resource directory (lines 555-559 drive the per-item body over
every file returned by the archive reader). -/
def restoreItems (ctx : ItemCtx) (st : RState) (items : List (String × Json)) : RState :=
  items.foldl (fun s it => restoreItem ctx s it.1 it.2) st

/-- Two runs of the item loop over the same items, started from states
that agree on the provisioning set, append one and the same batch of
error messages and one and the same panic flag to their respective
accumulators. -/
theorem restoreItems_pair (ctx : ItemCtx) (items : List (String × Json)) :
    ∀ sa sb : RState, sa.pvsToProvision = sb.pvsToProvision →
      ∃ (de : List String) (p : Bool),
        (restoreItems ctx sa items).errs
            = de.foldl (fun r m => addToResult r ctx.ns m) sa.errs ∧
        (restoreItems ctx sa items).panicked = (sa.panicked || p) ∧
        (restoreItems ctx sb items).errs
            = de.foldl (fun r m => addToResult r ctx.ns m) sb.errs ∧
        (restoreItems ctx sb items).panicked = (sb.panicked || p) := by
  induction items with
  | nil => exact fun sa sb _ => ⟨[], false, rfl, by simp [restoreItems], rfl, by simp [restoreItems]⟩
  | cons it rest ih =>
    intro sa sb hpvs
    obtain ⟨de1, p1, hdelta⟩ := restoreItem_delta ctx it.1 it.2 sa.pvsToProvision
    have ha := hdelta sa (Or.inl rfl)
    have hb := hdelta sb (Or.inl hpvs.symm)
    obtain ⟨g, hg⟩ := restoreItem_pvs_fun ctx it.1 it.2
    have hpvs2 : (restoreItem ctx sa it.1 it.2).pvsToProvision
        = (restoreItem ctx sb it.1 it.2).pvsToProvision := by
      rw [hg sa, hg sb, hpvs]
    obtain ⟨de2, p2, h2a, h2b, h2c, h2d⟩ :=
      ih (restoreItem ctx sa it.1 it.2) (restoreItem ctx sb it.1 it.2) hpvs2
    have keya : restoreItems ctx sa (it :: rest)
        = restoreItems ctx (restoreItem ctx sa it.1 it.2) rest := rfl
    have keyb : restoreItems ctx sb (it :: rest)
        = restoreItems ctx (restoreItem ctx sb it.1 it.2) rest := rfl
    refine ⟨de1 ++ de2, p1 || p2, ?_, ?_, ?_, ?_⟩
    · rw [keya, h2a, ha.1, List.foldl_append]
    · rw [keya, h2b, ha.2, Bool.or_assoc]
    · rw [keyb, h2c, hb.1, List.foldl_append]
    · rw [keyb, h2d, hb.2, Bool.or_assoc]

/-- The state at which a second restore pass over the same resource
starts: the cluster left behind by the first pass, fresh result
aggregates, watch and task bookkeeping (each `Restore` call builds a
new restore context), and the provisioning set as rebuilt by the
earlier resources of the second restore. -/
def secondPassState (st1 : RState) (pvs : List String) : RState :=
  ⟨st1.cluster, pvs, false, [], [], [], [], emptyResult, emptyResult, false⟩

/-- C9 (amended): when the first pass over the items of a resource adds
no error message and does not panic, a second pass over the same
unchanged items — into the cluster produced by the first pass, with
fresh result aggregates and the provisioning set rebuilt to its
first-pass value — ends with all error lists (system, cluster and
per-namespace) empty and no panic.  The first-pass hypothesis is
necessary: an item that errs on the first pass errs again on the
second. -/
theorem c9_second_pass_no_errors (ctx : ItemCtx) (items : List (String × Json)) (st : RState)
    (hpan : st.panicked = false)
    (h1e : (restoreItems ctx st items).errs = st.errs)
    (h1p : (restoreItems ctx st items).panicked = false) :
    (restoreItems ctx
        (secondPassState (restoreItems ctx st items) st.pvsToProvision) items).errs
      = emptyResult ∧
    (restoreItems ctx
        (secondPassState (restoreItems ctx st items) st.pvsToProvision) items).panicked
      = false := by
  obtain ⟨de, p, ha, hb, hc, hd⟩ := restoreItems_pair ctx items st
    (secondPassState (restoreItems ctx st items) st.pvsToProvision) rfl
  have hde : de = [] := by
    refine foldl_addToResult_eq de st.errs ctx.ns ?_
    rw [← ha]
    exact h1e
  have hp : p = false := by
    rw [h1p, hpan] at hb
    simpa using hb.symm
  subst hde hp
  constructor
  · simpa [secondPassState] using hc
  · simpa [secondPassState] using hd

/-- Witness for C9: a fresh ConfigMap restored into an empty cluster
reports no error on the first pass, and the second pass into the
resulting cluster ends with every error list empty. -/
theorem c9_second_pass_no_errors_witness :
    st0.panicked = false ∧
    (restoreItems ctxCM st0 [("cm1.json", cmObj)]).errs = st0.errs ∧
    (restoreItems ctxCM
        (secondPassState (restoreItems ctxCM st0 [("cm1.json", cmObj)]) st0.pvsToProvision)
        [("cm1.json", cmObj)]).errs = emptyResult :=
  ⟨rfl, by decide,
   (c9_second_pass_no_errors ctxCM [("cm1.json", cmObj)] st0 rfl (by decide) (by decide)).1⟩

/-- A decodable item that carries no `metadata` map at all. -/
def badObj : Json := .obj [("apiVersion", .str "v1"), ("kind", .str "ConfigMap")]

/-- C9 counterexample: an item with no `metadata` map fails
`resetMetadataAndStatus` on every pass, so the second restore of the
unchanged archive into the cluster left by the first pass reports the
same error again — its error lists are not all empty, refuting the
unconditional reading of the claim. -/
theorem c9_error_repeats_on_second_pass :
    (restoreItems ctxCM
        (secondPassState (restoreItems ctxCM st0 [("bad.json", badObj)]) st0.pvsToProvision)
        [("bad.json", badObj)]).errs ≠ emptyResult := by
  decide
